import Mathlib

/-!
# Environment info store, admin bootstrap and initial seed of juju

A shallow embedding of `environs/configstore/disk.go`, `cmd/jujud/initzk.go`,
`environs/azure/instance.go` and the harness of `mongo/admin_test.go`, together
with the operating-system calls they rely on, followed by the verified
properties.

The file system is explicit state that every operation threads through.
System calls behave as the state dictates unless a `Fault` is supplied for
them; a fault stands for a failure whose cause lies outside the modelled state
(permissions, a read-only device, exhausted space).
-/

set_option autoImplicit false

namespace Juju

/-! ## Paths (`path/filepath` on a slash-separated system) -/

/-- Components of a path between slashes; a path without slash is one component. -/
def splitSlash : List Char → List (List Char)
  | [] => [[]]
  | c :: cs =>
    if c = '/' then [] :: splitSlash cs
    else
      match splitSlash cs with
      | [] => [[c]]
      | x :: xs => (c :: x) :: xs

/-- One step of `filepath.Clean` over the stack of kept components (top first):
empty and `.` components are dropped, `..` removes the component before it,
is dropped at the root, and is kept at the start of a relative path. -/
def cleanStep (rooted : Bool) (st : List (List Char)) (c : List Char) : List (List Char) :=
  if c = [] ∨ c = ['.'] then st
  else if c = ['.', '.'] then
    match st with
    | [] => if rooted then [] else [c]
    | top :: rest => if top = ['.', '.'] then c :: st else rest
  else c :: st

/-- Components joined by single slashes. -/
def joinSlash : List (List Char) → List Char
  | [] => []
  | [c] => c
  | c :: d :: rest => c ++ '/' :: joinSlash (d :: rest)

/-- The function `filepath.Clean` on characters. -/
def cleanChars (p : List Char) : List Char :=
  if p = [] then ['.']
  else
    let rooted := decide (p.head? = some '/')
    let st := (splitSlash p).foldl (cleanStep rooted) []
    if rooted then '/' :: joinSlash st.reverse
    else if st = [] then ['.'] else joinSlash st.reverse

/-- The function `filepath.Clean`. -/
def Clean (p : String) : String := String.mk (cleanChars p.data)

/-- The function `filepath.Join`: empty elements are ignored, the rest is joined
by slashes and cleaned; with no non-empty element the result is empty. -/
def Join (elem : List String) : String :=
  match elem.filter (fun e => e ≠ "") with
  | [] => ""
  | es => Clean (String.mk (joinSlash (es.map String.data)))

/-- Characters of a path up to and including its last slash. -/
def splitDirChars : List Char → List Char
  | [] => []
  | c :: cs =>
    if '/' ∈ cs then c :: splitDirChars cs
    else if c = '/' then [c] else []

/-- The first result of `filepath.Split`: the path up to and including the final slash. -/
def SplitDir (path : String) : String := String.mk (splitDirChars path.data)

/-- The function `filepath.Dir`: the cleaned directory part of a path. -/
def Dir (path : String) : String := Clean (SplitDir path)

/-- Error numbers reported by system calls. -/
inductive Errno
  | EEXIST | ENOENT | ENOTDIR | EISDIR | ENOTEMPTY | EACCES | EROFS | ENOSPC
  deriving DecidableEq, Repr

/-- Failures of a system call that the modelled state does not determine. -/
inductive Fault
  | EACCES | EROFS | ENOSPC
  deriving DecidableEq, Repr

/-- Error number a fault is reported with. -/
def Fault.errno : Fault → Errno
  | .EACCES => .EACCES
  | .EROFS => .EROFS
  | .ENOSPC => .ENOSPC

/-- The predicate `os.IsExist`. -/
def IsExist (e : Errno) : Bool := decide (e = .EEXIST)

/-- The predicate `os.IsNotExist`. -/
def IsNotExist (e : Errno) : Bool := decide (e = .ENOENT)

/-- What a path names: a regular file with its content, or a directory. -/
inductive Node
  | file (data : String)
  | dir
  deriving DecidableEq, Repr

/-- File-system state: the entries that exist, keyed by path (first match counts). -/
structure FS where
  entries : List (String × Node)
  deriving DecidableEq, Repr

/-- Lookup among entries. -/
def lookupNode : List (String × Node) → String → Option Node
  | [], _ => none
  | e :: rest, p => if e.1 = p then some e.2 else lookupNode rest p

/-- The entry at a path, if any. -/
def FS.node (fs : FS) (p : String) : Option Node := lookupNode fs.entries p

/-- State without the entry at `p`. -/
def FS.del (fs : FS) (p : String) : FS := ⟨fs.entries.filter (fun e => !decide (e.1 = p))⟩

/-- State with the entry at `p` replaced by `n`. -/
def FS.set (fs : FS) (p : String) (n : Node) : FS := ⟨(p, n) :: (fs.del p).entries⟩

/-- Whether some other entry lies directly inside directory `d`. -/
def FS.hasEntryIn (fs : FS) (d : String) : Bool :=
  fs.entries.any (fun e => decide (e.1 ≠ d) && decide (Dir e.1 = d))

/-- Error for a path that has no entry: its directory decides between
`ENOTDIR` (the directory part is a regular file), `ENOENT` (it is missing too)
and no error (the directory exists, so the entry can be created). -/
def FS.parentError (fs : FS) (p : String) : Option Errno :=
  match fs.node (Dir p) with
  | some .dir => none
  | some (.file _) => some .ENOTDIR
  | none => some .ENOENT

/-- The call `os.Mkdir(name, perm)`. -/
def osMkdir (fs : FS) (name : String) (fault : Option Fault) : Option Errno × FS :=
  match fault with
  | some f => (some f.errno, fs)
  | none =>
    match fs.node name with
    | some _ => (some .EEXIST, fs)
    | none =>
      match fs.parentError name with
      | some e => (some e, fs)
      | none => (none, fs.set name .dir)

/-- The call `os.OpenFile(name, O_CREATE|O_EXCL|..., perm)`: creates an empty file,
failing when the name is taken. -/
def osOpenExcl (fs : FS) (name : String) (fault : Option Fault) : Option Errno × FS :=
  match fault with
  | some f => (some f.errno, fs)
  | none =>
    match fs.node name with
    | some _ => (some .EEXIST, fs)
    | none =>
      match fs.parentError name with
      | some e => (some e, fs)
      | none => (none, fs.set name (.file ""))

/-- The call `ioutil.ReadFile(name)`. For a name without entry the error is
decided by the directory part of the name alone (`parentError`): the limits that
the system puts on names (`pathAccepted`) and the directories further up play
no part. A missing entry is therefore only reasoned about where those cannot
matter: where the entry was there before the call that removed it, or where the
name is accepted and its directory is in place. -/
def ReadFile (fs : FS) (name : String) (fault : Option Fault) : Except Errno String :=
  match fault with
  | some f => .error f.errno
  | none =>
    match fs.node name with
    | some (.file data) => .ok data
    | some .dir => .error .EISDIR
    | none =>
      match fs.parentError name with
      | some e => .error e
      | none => .error .ENOENT

/-- Nine decimal digits of `n`, most significant first. -/
def digits9 (n : Nat) : List Char :=
  [8, 7, 6, 5, 4, 3, 2, 1, 0].map (fun i => Char.ofNat (48 + n / 10 ^ i % 10))

/-- The helper `nextSuffix` of `ioutil.TempFile`: the last nine decimal digits of
the next pseudo-random number `r`. -/
def nextSuffix (r : Nat) : String := String.mk (digits9 (r % 10 ^ 9))

/-- The directory `os.TempDir()` used when `TempFile` is given an empty directory. -/
def TempDir : String := "/tmp"

/-- The retry loop of `ioutil.TempFile`: one exclusive create per pseudo-random
number, continuing while the name is taken. `rand` is the sequence of numbers
the generator yields for the (at most 10000) attempts. -/
def tempFileLoop (fs : FS) (dir : String) : List Nat → Except Errno String × FS
  | [] => (.error .EEXIST, fs)
  | r :: rs =>
    let name := Join [dir, nextSuffix r]
    match osOpenExcl fs name none with
    | (none, fs1) => (.ok name, fs1)
    | (some e, fs1) => if IsExist e then tempFileLoop fs1 dir rs else (.error e, fs1)

/-- The call `ioutil.TempFile(dir, "")`: creates a new file in `dir` and returns its name. -/
def TempFile (fs : FS) (dir : String) (rand : List Nat) (fault : Option Fault) :
    Except Errno String × FS :=
  match fault with
  | some f => (.error f.errno, fs)
  | none => tempFileLoop fs (if dir = "" then TempDir else dir) rand

/-- The call `f.Write(data)` on the file just created under `name`. A fault
carries the number of bytes that reached the file before the failure. -/
def fileWrite (fs : FS) (name : String) (data : String) (fault : Option (Fault × Nat)) :
    Option Errno × FS :=
  match fault with
  | some (f, n) => (some f.errno, fs.set name (.file (String.mk (data.data.take n))))
  | none => (none, fs.set name (.file data))

/-- The call `os.Rename(old, new)`: atomically makes `new` name what `old` named.
The source only renames the regular file created by `TempFile`; entries below a
renamed directory are not re-keyed. -/
def osRename (fs : FS) (old new : String) (fault : Option Fault) : Option Errno × FS :=
  match fault with
  | some f => (some f.errno, fs)
  | none =>
    match fs.node old with
    | none => (some ((fs.parentError old).getD .ENOENT), fs)
    | some n =>
      if old = new then (none, fs)
      else
        match fs.node new with
        | some .dir =>
          if n = .dir then
            if fs.hasEntryIn new then (some .ENOTEMPTY, fs) else (none, (fs.del old).set new n)
          else (some .EISDIR, fs)
        | some (.file _) =>
          if n = .dir then (some .ENOTDIR, fs) else (none, (fs.del old).set new n)
        | none =>
          match fs.parentError new with
          | some e => (some e, fs)
          | none => (none, (fs.del old).set new n)

/-- The call `os.Remove(name)`: removes a file or an empty directory. -/
def osRemove (fs : FS) (name : String) (fault : Option Fault) : Option Errno × FS :=
  match fault with
  | some f => (some f.errno, fs)
  | none =>
    match fs.node name with
    | none => (some ((fs.parentError name).getD .ENOENT), fs)
    | some (.file _) => (none, fs.del name)
    | some .dir => if fs.hasEntryIn name then (some .ENOTEMPTY, fs) else (none, fs.del name)

/-- The call `os.Stat(name)`, reduced to its error. -/
def osStat (fs : FS) (name : String) (fault : Option Fault) : Option Errno :=
  match fault with
  | some f => some f.errno
  | none =>
    match fs.node name with
    | some _ => none
    | none => some ((fs.parentError name).getD .ENOENT)

/-! ## YAML (`launchpad.net/goyaml`) -/

/-- Values of the bootstrap configuration (`interface{}` holding a YAML scalar). -/
inductive Value
  | str (s : String)
  | int (i : Int)
  | bool (b : Bool)
  | null
  deriving DecidableEq, Repr

/-- Value of one key of the persisted document. -/
inductive YNode
  | scalar (s : String)
  | seq (items : List String)
  | map (m : List (String × Value))
  deriving DecidableEq, Repr

/-- A YAML document whose top level is a mapping. -/
abbrev Document := List (String × YNode)

/-- The wire level of the YAML library: rendering a document to bytes and
parsing bytes back. The library is not part of the repository, so both
directions are parameters of the embedding. -/
structure YAML where
  emit : Document → Except String String
  parse : String → Except String Document

/-- The type `diskStore`. -/
structure diskStore where
  dir : String
  deriving DecidableEq, Repr

/-- The type `environInfo`. A nil and an empty slice or map are the same list. -/
structure environInfo where
  path : String
  initialized : Bool
  created : Bool
  User : String
  Password : String
  StateServers : List String
  CACert : String
  Config : List (String × Value)
  deriving DecidableEq, Repr

/-- The type `APICredentials`. -/
structure APICredentials where
  User : String
  Password : String
  deriving DecidableEq, Repr

/-- The type `APIEndpoint`. -/
structure APIEndpoint where
  Addresses : List String
  CACert : String
  deriving DecidableEq, Repr

/-- Errors returned by the store. -/
inductive Error
  /-- An operating-system error handed on unchanged. -/
  | os (e : Errno)
  /-- The value `ErrEnvironInfoAlreadyExists`. -/
  | ErrEnvironInfoAlreadyExists
  /-- The error `errors.NotFoundf("environment %q", envName)`. -/
  | NotFound (envName : String)
  /-- The error `"error unmarshalling %q: %v"`. -/
  | unmarshalling (path : String) (msg : String)
  /-- The error `"cannot marshal environment info: %v"`. -/
  | cannotMarshal (msg : String)
  /-- The error `"cannot create temporary file: %v"`. -/
  | cannotCreateTemp (e : Errno)
  /-- The error `"cannot write temporary file: %v"`. -/
  | cannotWriteTemp (e : Errno)
  /-- The error `"cannot rename new environment info file: %v"`. -/
  | cannotRename (e : Errno)
  /-- The error `"environment info has already been removed"`. -/
  | alreadyRemoved
  deriving DecidableEq, Repr

/-- The predicate `errors.IsNotFoundError`. -/
def Error.IsNotFound : Error → Bool
  | .NotFound _ => true
  | _ => false

/-- The zero value of `environInfo`. -/
def environInfo.zero : environInfo :=
  { path := "", initialized := false, created := false, User := "", Password := "",
    StateServers := [], CACert := "", Config := [] }

/-- The document `goyaml.Marshal` builds from an `environInfo`: the exported
fields under their keys, `bootstrap-config` left out when empty (`omitempty`). -/
def environInfo.toDocument (info : environInfo) : Document :=
  [("user", .scalar info.User), ("password", .scalar info.Password),
   ("state-servers", .seq info.StateServers), ("ca-cert", .scalar info.CACert)]
  ++ (if info.Config = [] then [] else [("bootstrap-config", .map info.Config)])

/-- The decoding of one document key into the field tagged with it; unknown keys
and values of another kind leave the struct as it is. -/
def environInfo.setField (info : environInfo) (kv : String × YNode) : environInfo :=
  if kv.1 = "user" then
    match kv.2 with
    | .scalar s => { info with User := s }
    | _ => info
  else if kv.1 = "password" then
    match kv.2 with
    | .scalar s => { info with Password := s }
    | _ => info
  else if kv.1 = "state-servers" then
    match kv.2 with
    | .seq l => { info with StateServers := l }
    | _ => info
  else if kv.1 = "ca-cert" then
    match kv.2 with
    | .scalar s => { info with CACert := s }
    | _ => info
  else if kv.1 = "bootstrap-config" then
    match kv.2 with
    | .map m => { info with Config := m }
    | _ => info
  else info

/-- The call `goyaml.Marshal(info)`. -/
def Marshal (y : YAML) (info : environInfo) : Except String String :=
  y.emit info.toDocument

/-- The call `goyaml.Unmarshal(data, &info)`. -/
def Unmarshal (y : YAML) (data : String) (info : environInfo) : Except String environInfo :=
  match y.parse data with
  | .error msg => .error msg
  | .ok doc => .ok (doc.foldl environInfo.setField info)

/-- The function `NewDisk`. -/
def NewDisk (fs : FS) (dir : String) (fault : Option Fault) : Except Error diskStore :=
  match osStat fs dir fault with
  | some err => .error (.os err)
  | none => .ok ⟨dir⟩

/-- The method `diskStore.envPath`. -/
def diskStore.envPath (d : diskStore) (envName : String) : String :=
  Join [d.dir, "environments", envName ++ ".yaml"]

/-- The method `diskStore.mkEnvironmentsDir`. -/
def diskStore.mkEnvironmentsDir (d : diskStore) (fs : FS) (fault : Option Fault) :
    Option Errno × FS :=
  match osMkdir fs (Join [d.dir, "environments"]) fault with
  | (none, fs1) => (none, fs1)
  | (some err, fs1) => if IsExist err then (none, fs1) else (some err, fs1)

/-- The method `diskStore.CreateInfo`; `fMkdir` and `fOpen` are the faults of its
two system calls. -/
def diskStore.CreateInfo (d : diskStore) (fs : FS) (envName : String)
    (fMkdir fOpen : Option Fault) : Except Error environInfo × FS :=
  match d.mkEnvironmentsDir fs fMkdir with
  | (some err, fs1) => (.error (.os err), fs1)
  | (none, fs1) =>
    let path := d.envPath envName
    match osOpenExcl fs1 path fOpen with
    | (some err, fs2) =>
      if IsExist err then (.error .ErrEnvironInfoAlreadyExists, fs2) else (.error (.os err), fs2)
    | (none, fs2) => (.ok { environInfo.zero with created := true, path := path }, fs2)

/-- The method `diskStore.ReadInfo`. -/
def diskStore.ReadInfo (y : YAML) (d : diskStore) (fs : FS) (envName : String)
    (fault : Option Fault) : Except Error environInfo :=
  let path := d.envPath envName
  match ReadFile fs path fault with
  | .error err => if IsNotExist err then .error (.NotFound envName) else .error (.os err)
  | .ok data =>
    let info := { environInfo.zero with path := path }
    if data.length = 0 then .ok info
    else
      match Unmarshal y data info with
      | .error msg => .error (.unmarshalling path msg)
      | .ok info1 => .ok { info1 with initialized := true }

/-- The method `environInfo.Initialized`. -/
def environInfo.Initialized (info : environInfo) : Bool := info.initialized

/-- The method `environInfo.BootstrapConfig`. -/
def environInfo.BootstrapConfig (info : environInfo) : List (String × Value) := info.Config

/-- The method `environInfo.APICredentials`. -/
def environInfo.APICredentials (info : environInfo) : APICredentials :=
  { User := info.User, Password := info.Password }

/-- The method `environInfo.APIEndpoint`. -/
def environInfo.APIEndpoint (info : environInfo) : APIEndpoint :=
  { Addresses := info.StateServers, CACert := info.CACert }

/-- The method `environInfo.SetBootstrapConfig`; a panic is an error result
carrying the panic message. -/
def environInfo.SetBootstrapConfig (info : environInfo) (attrs : List (String × Value)) :
    Except String environInfo :=
  if !info.created then
    .error "bootstrap config set on environment info that has not just been created"
  else .ok { info with Config := attrs }

/-- The method `environInfo.SetAPIEndpoint`. -/
def environInfo.SetAPIEndpoint (info : environInfo) (endpoint : Juju.APIEndpoint) : environInfo :=
  { info with StateServers := endpoint.Addresses, CACert := endpoint.CACert }

/-- The method `environInfo.SetAPICredentials`. -/
def environInfo.SetAPICredentials (info : environInfo) (creds : Juju.APICredentials) : environInfo :=
  { info with User := creds.User, Password := creds.Password }

/-- What the environment contributes to one `Write`: the pseudo-random numbers
drawn by `TempFile` and the faults of the system calls, in call order. -/
structure WriteEnv where
  rand : List Nat
  fTemp : Option Fault
  fWrite : Option (Fault × Nat)
  fRename : Option Fault
  fRemove : Option Fault
  deriving DecidableEq, Repr

/-- Outcome of `Write`: the returned error, the handle afterwards, the final
file-system state, and the states after each system call in order (a crash
leaves the initial state or one of these). -/
structure WriteResult where
  err : Option Error
  info : environInfo
  fs : FS
  steps : List FS
  deriving DecidableEq, Repr

/-- The method `environInfo.Write`. -/
def environInfo.Write (y : YAML) (info : environInfo) (fs : FS) (env : WriteEnv) : WriteResult :=
  match Marshal y info with
  | .error msg => ⟨some (.cannotMarshal msg), info, fs, []⟩
  | .ok data =>
    let parent := SplitDir info.path
    match TempFile fs parent env.rand env.fTemp with
    | (.error err, fs1) => ⟨some (.cannotCreateTemp err), info, fs1, [fs1]⟩
    | (.ok tmpFile, fs1) =>
      match fileWrite fs1 tmpFile data env.fWrite with
      | (some err, fs2) => ⟨some (.cannotWriteTemp err), info, fs2, [fs1, fs2]⟩
      | (none, fs2) =>
        match osRename fs2 tmpFile info.path env.fRename with
        | (some err, fs3) =>
          let fs4 := (osRemove fs3 tmpFile env.fRemove).2
          ⟨some (.cannotRename err), info, fs4, [fs1, fs2, fs3, fs4]⟩
        | (none, fs3) => ⟨none, { info with initialized := true }, fs3, [fs1, fs2, fs3]⟩

/-- The method `environInfo.Destroy`. -/
def environInfo.Destroy (info : environInfo) (fs : FS) (fault : Option Fault) :
    Option Error × FS :=
  match osRemove fs info.path fault with
  | (some err, fs1) =>
    if IsNotExist err then (some .alreadyRemoved, fs1) else (some (.os err), fs1)
  | (none, fs1) => (none, fs1)

/-- Names that `ioutil.TempFile` can give to a temporary file. -/
def IsTempName (p : String) : Prop := ∃ dir r, p = Join [dir, nextSuffix r]

/-- Program state around a handle method: the file system and the handle. -/
structure Session where
  fs : FS
  info : environInfo
  deriving DecidableEq, Repr

/-- The method `SetAPIEndpoint` as a step of the program state; its body makes
no system call, so the file system is handed on as it is. -/
def Session.SetAPIEndpoint (s : Session) (endpoint : APIEndpoint) : Session :=
  { s with info := s.info.SetAPIEndpoint endpoint }

/-- The method `SetAPICredentials` as a step of the program state; its body makes
no system call, so the file system is handed on as it is. -/
def Session.SetAPICredentials (s : Session) (creds : APICredentials) : Session :=
  { s with info := s.info.SetAPICredentials creds }

/-- The type `state.Info`. -/
structure StateInfo where
  Addrs : List String
  deriving DecidableEq, Repr

/-- The type `InitzkCommand`. -/
structure InitzkCommand where
  StateInfo : StateInfo
  InstanceId : String
  EnvType : String
  deriving DecidableEq, Repr

/-- A machine entity; machine `n` is entry `n` of the database, and an instance
id that was never set is empty. -/
structure Machine where
  instanceId : String
  deriving DecidableEq, Repr

/-- Calls made to the `state` package. -/
inductive StateCall
  | Initialize (info : StateInfo)
  | AddMachine
  | SetInstanceId (machine : Nat) (id : String)
  | Close
  deriving DecidableEq, Repr

/-- The state database: its machine entities and the calls it has received. -/
structure StateDB where
  machines : List Machine
  calls : List StateCall
  deriving DecidableEq, Repr

/-- Modelled from the spec: `state.Initialize`, whose package is not among the
sources. It reaches the state database given by the addresses and sets up its
first control record; `fault` is the error it fails with, if any. -/
def stateInitialize (db : StateDB) (info : StateInfo) (fault : Option String) :
    Option String × StateDB :=
  (fault, { db with calls := db.calls ++ [.Initialize info] })

/-- Modelled from the spec: `State.AddMachine`, whose package is not among the
sources. It adds one machine entity and returns its number; `fault` is the
error it fails with, if any. -/
def stateAddMachine (db : StateDB) (fault : Option String) : Except String Nat × StateDB :=
  match fault with
  | some err => (.error err, { db with calls := db.calls ++ [.AddMachine] })
  | none =>
    (.ok db.machines.length,
      { machines := db.machines ++ [⟨""⟩], calls := db.calls ++ [.AddMachine] })

/-- Modelled from the spec: `Machine.SetInstanceId`, whose package is not among
the sources. It marks machine `m` with the instance identifier; `fault` is the
error it fails with, if any. -/
def machineSetInstanceId (db : StateDB) (m : Nat) (id : String) (fault : Option String) :
    Option String × StateDB :=
  match fault with
  | some err => (some err, { db with calls := db.calls ++ [.SetInstanceId m id] })
  | none =>
    (none, { machines := db.machines.set m ⟨id⟩, calls := db.calls ++ [.SetInstanceId m id] })

/-- Modelled from the spec: `State.Close`, whose package is not among the sources. -/
def stateClose (db : StateDB) : StateDB := { db with calls := db.calls ++ [.Close] }

/-- The method `InitzkCommand.Run`; `fInit`, `fAdd` and `fSet` are the errors
that its three calls into the `state` package fail with, if any. -/
def InitzkCommand.Run (c : InitzkCommand) (db : StateDB) (fInit fAdd fSet : Option String) :
    Option String × StateDB :=
  match stateInitialize db c.StateInfo fInit with
  | (some err, db1) => (some err, db1)
  | (none, db1) =>
    -- `defer st.Close()` runs on every return below
    match stateAddMachine db1 fAdd with
    | (.error err, db2) => (some err, stateClose db2)
    | (.ok m, db2) =>
      match machineSetInstanceId db2 m c.InstanceId fSet with
      | (some err, db3) => (some err, stateClose db3)
      | (none, db3) => (none, stateClose db3)

/-! ## `mongo/admin_test.go` and the function it tests -/

/-- The counters of the type `adminSuite`. -/
structure adminSuite where
  serviceStarts : Nat
  serviceStops : Nat
  deriving DecidableEq, Repr

/-- What the admin tests act on: the suite's counters, the users of the admin
database of the mongo instance, and the argument lists with which the mocked
`mongod` executable was run. -/
structure MongoWorld where
  suite : adminSuite
  adminUsers : List (String × String)
  mongodRuns : List (List String)
  deriving DecidableEq, Repr

/-- The type `mongo.EnsureAdminUserParams`, with the addresses of its `DialInfo`. -/
structure EnsureAdminUserParams where
  Addrs : List String
  Port : Nat
  User : String
  Password : String
  deriving DecidableEq, Repr

/-- The hook `mongo.UpstartServiceStart` as patched by `SetUpTest`. -/
def UpstartServiceStart (w : MongoWorld) : Option String × MongoWorld :=
  (none, { w with suite := { w.suite with serviceStarts := w.suite.serviceStarts + 1 } })

/-- The hook `mongo.UpstartServiceStop` as patched by `SetUpTest`. -/
def UpstartServiceStop (w : MongoWorld) : Option String × MongoWorld :=
  (none, { w with suite := { w.suite with serviceStops := w.suite.serviceStops + 1 } })

/-- Arguments of the transient `mongod`, as `TestEnsureAdminUser` expects them. -/
def noauthArgs (portString : String) : List String :=
  ["--noauth", "--dbpath", "db", "--sslOnNormalPorts", "--sslPEMKeyFile", "server.pem",
   "--sslPEMKeyPassword", "ignored", "--bind_ip", "127.0.0.1", "--port", portString,
   "--noprealloc", "--syslog", "--smallfiles", "--journal"]

/-- Modelled from the spec: `mongo.EnsureAdminUser`, whose source file is not
among the sources (only its test is). The steps are those of section 4.2: stop
the service, run a transient `mongod` without authentication, add the admin
user, restart the service, report `added`. Where the spec's wording and the
repository's test disagree the test is followed: `TestEnsureAdminUser` asserts
that a second call causes "no additional start/stop", so the check for the
admin user (a login with the requested credentials) comes first, and when it
succeeds the call returns `added = false` without touching the service. -/
def EnsureAdminUser (p : EnsureAdminUserParams) (w : MongoWorld) :
    (Bool × Option String) × MongoWorld :=
  if (p.User, p.Password) ∈ w.adminUsers then ((false, none), w)
  else
    match UpstartServiceStop w with
    | (some err, w1) => ((false, some err), w1)
    | (none, w1) =>
      let w2 := { w1 with mongodRuns := w1.mongodRuns ++ [noauthArgs (toString p.Port)] }
      let w3 := { w2 with adminUsers := w2.adminUsers ++ [(p.User, p.Password)] }
      match UpstartServiceStart w3 with
      | (some err, w4) => ((false, some err), w4)
      | (none, w4) => ((true, none), w4)

/-- Modelled from the spec: the protocol of section 4.2 taken by its letter, for
comparison with `EnsureAdminUser`: every call stops the service, runs the
transient `mongod`, adds the admin user only if there is none yet, and
restarts the service. -/
def EnsureAdminUserByTheLetter (p : EnsureAdminUserParams) (w : MongoWorld) :
    (Bool × Option String) × MongoWorld :=
  match UpstartServiceStop w with
  | (some err, w1) => ((false, some err), w1)
  | (none, w1) =>
    let w2 := { w1 with mongodRuns := w1.mongodRuns ++ [noauthArgs (toString p.Port)] }
    let added := decide ((p.User, p.Password) ∉ w2.adminUsers)
    let w3 := if added then { w2 with adminUsers := w2.adminUsers ++ [(p.User, p.Password)] }
      else w2
    match UpstartServiceStart w3 with
    | (some err, w4) => ((false, some err), w4)
    | (none, w4) => ((added, none), w4)

/-- The state in which a test starts: `SetUpTest` has reset both counters, and
the mongo instance has just been started, without users. -/
def freshWorld : MongoWorld := { suite := ⟨0, 0⟩, adminUsers := [], mongodRuns := [] }

/-- The method `adminSuite.TestEnsureAdminUser`, run against an implementation
of `EnsureAdminUser` on an instance listening on `port`: whether each of its
assertions holds. -/
def TestEnsureAdminUser
    (impl : EnsureAdminUserParams → MongoWorld → (Bool × Option String) × MongoWorld)
    (port : Nat) : Bool :=
  let p : EnsureAdminUserParams :=
    { Addrs := ["localhost:" ++ toString port], Port := port, User := "whomever",
      Password := "whatever" }
  -- First call succeeds, as there are no users yet.
  let r1 := impl p freshWorld
  let r2 := impl p r1.2
  decide (r1.1.2 = none) && decide (r1.1.1 = true)
    && decide (r1.2.suite.serviceStarts = 1) && decide (r1.2.suite.serviceStops = 1)
    && decide (r1.2.mongodRuns.getLast? = some (noauthArgs (toString port)))
    -- Second call succeeds, as the admin user is already there.
    && decide (r2.1.2 = none) && decide (r2.1.1 = false)
    -- There should have been no additional start/stop.
    && decide (r2.2.suite.serviceStarts = 1) && decide (r2.2.suite.serviceStops = 1)

/-! ## `environs/azure/instance.go` -/

/-- The type `azureInstance`. -/
structure azureInstance where
  deriving DecidableEq, Repr

/-- The type `params.Port`. -/
structure Port where
  Protocol : String
  Number : Nat
  deriving DecidableEq, Repr

/-- The method `azureInstance.Id`; a panic is an error result carrying the panic
value, a normal return would be `.ok` with the returned instance id. -/
def azureInstance.Id (_instance : azureInstance) : Except String String :=
  .error "unimplemented"

/-- The method `azureInstance.DNSName`; a normal return would be `.ok` with the
returned name and error. -/
def azureInstance.DNSName (_instance : azureInstance) : Except String (String × Option String) :=
  .error "unimplemented"

/-- The method `azureInstance.WaitDNSName`. -/
def azureInstance.WaitDNSName (_instance : azureInstance) :
    Except String (String × Option String) :=
  .error "unimplemented"

/-- The method `azureInstance.OpenPorts`; a normal return would be `.ok` with the
returned error. -/
def azureInstance.OpenPorts (_instance : azureInstance) (_machineId : String)
    (_ports : List Port) : Except String (Option String) :=
  .error "unimplemented"

/-- The method `azureInstance.ClosePorts`. -/
def azureInstance.ClosePorts (_instance : azureInstance) (_machineId : String)
    (_ports : List Port) : Except String (Option String) :=
  .error "unimplemented"

/-- The method `azureInstance.Ports`; a normal return would be `.ok` with the
returned ports and error. -/
def azureInstance.Ports (_instance : azureInstance) (_machineId : String) :
    Except String (List Port × Option String) :=
  .error "unimplemented"

/-! ## A line-oriented rendering, used to instantiate the `YAML` parameter -/

/-- Text before and after the first occurrence of the separator `c`. -/
def cutAt (c : Char) : List Char → List Char × List Char
  | [] => ([], [])
  | x :: xs => if x = c then ([], xs) else ((cutAt c xs).1.cons x, (cutAt c xs).2)

/-- Pieces of a text in which every piece is followed by the separator `c`. -/
def pieces (c : Char) : List Char → List Char → List (List Char)
  | _, [] => []
  | acc, x :: xs => if x = c then acc.reverse :: pieces c [] xs else pieces c (x :: acc) xs

/-- All values of a list of optional values, if none is missing. -/
def allSome {α : Type} : List (Option α) → Option (List α)
  | [] => some []
  | none :: _ => none
  | some a :: rest => (allSome rest).map (fun l => a :: l)

/-- Decimal rendering of an integer. -/
def intChars : Int → List Char
  | .ofNat n => Nat.toDigits 10 n
  | .negSucc n => '-' :: Nat.toDigits 10 (n + 1)

/-- The number that a list of decimal digits denotes. -/
def readNat (l : List Char) : Nat := l.foldl (fun acc c => acc * 10 + (c.toNat - 48)) 0

/-- Reading of a decimal integer. -/
def readInt : List Char → Int
  | '-' :: r => - (readNat r : Int)
  | r => (readNat r : Int)

/-- Rendering of a configuration value: a tag character, then the text. -/
def lineValue : Value → List Char
  | .str s => 's' :: s.data
  | .int i => 'i' :: intChars i
  | .bool true => ['t']
  | .bool false => ['f']
  | .null => ['n']

/-- Rendering of the value of one key. -/
def lineNode : YNode → List Char
  | .scalar s => 's' :: s.data
  | .seq items => 'q' :: (items.map (fun i => i.data ++ [','])).flatten
  | .map m => 'm' :: (m.map (fun kv => kv.1.data ++ '=' :: lineValue kv.2 ++ [','])).flatten

/-- Reading of a configuration value. -/
def readValue : List Char → Option Value
  | 's' :: r => some (.str (String.mk r))
  | 'i' :: r => some (.int (readInt r))
  | ['t'] => some (.bool true)
  | ['f'] => some (.bool false)
  | ['n'] => some .null
  | _ => none

/-- Reading of the value of one key. -/
def readNode : List Char → Option YNode
  | 's' :: r => some (.scalar (String.mk r))
  | 'q' :: r => some (.seq ((pieces ',' [] r).map String.mk))
  | 'm' :: r =>
    (allSome ((pieces ',' [] r).map (fun e =>
      (readValue (cutAt '=' e).2).map (fun v => (String.mk (cutAt '=' e).1, v))))).map YNode.map
  | _ => none

/-- A rendering with one line `key:value` per key. It reproduces documents whose
texts avoid the separator characters. -/
def lineYAML : YAML where
  emit doc := .ok (String.mk (doc.map (fun kv => kv.1.data ++ ':' :: lineNode kv.2 ++ ['\n'])).flatten)
  parse data :=
    match allSome ((pieces '\n' [] data.data).map (fun l =>
      (readNode (cutAt ':' l).2).map (fun n => (String.mk (cutAt ':' l).1, n)))) with
    | some doc => .ok doc
    | none => .error "malformed line"

/-- The line-oriented rendering with the merge key of goyaml: when a mapping is
decoded, goyaml takes its key `<<` for a merge key, whose value has to be a
mapping or a sequence of mappings, and fails on any other value. The values of
a bootstrap config are scalars here, so a parsed document with the key `<<` in
a mapping is refused. -/
def mergeKeyYAML : YAML where
  emit := lineYAML.emit
  parse data :=
    match lineYAML.parse data with
    | .error msg => .error msg
    | .ok doc =>
      if doc.any (fun kv =>
          match kv.2 with
          | .map m => m.any (fun e => e.1 = "<<")
          | _ => false)
      then .error "map merge requires map or sequence of maps as the value"
      else .ok doc

/-! ## Sample store -/

/-- A store rooted at a juju home directory. -/
def sampleStore : diskStore := ⟨"/home/u/.juju"⟩

/-- A file system holding only the store's root directory. -/
def sampleFS : FS := ⟨[("/home/u/.juju", .dir)]⟩

/-- The handle that `CreateInfo` returns for `env1` in the sample store. -/
def sampleCreated : environInfo :=
  { environInfo.zero with created := true, path := "/home/u/.juju/environments/env1.yaml" }

/-- The sample file system after `env1` has been reserved. -/
def sampleReservedFS : FS :=
  ⟨[("/home/u/.juju/environments/env1.yaml", .file ""), ("/home/u/.juju/environments", .dir),
    ("/home/u/.juju", .dir)]⟩

/-- A populated handle for `env1`. -/
def sampleInfo : environInfo :=
  { sampleCreated with
    User := "admin", Password := "secret", StateServers := ["10.0.0.1:17070", "10.0.0.2:17070"],
    CACert := "CERT", Config := [("name", .str "env1"), ("development", .bool false)] }

/-- An environment in which `Write` meets no fault and `TempFile` draws 7 first. -/
def sampleWriteEnv : WriteEnv :=
  { rand := [7], fTemp := none, fWrite := none, fRename := none, fRemove := none }

/-- A populated handle for `env1` whose bootstrap config has the key `<<`. -/
def sampleMergeInfo : environInfo :=
  { sampleCreated with
    User := "admin", Password := "secret", StateServers := ["10.0.0.1:17070"],
    CACert := "CERT", Config := [("<<", .str "x")] }

/-- A file system in which the place of the environments directory is taken by a
regular file. -/
def sampleBlockedFS : FS :=
  ⟨[("/home/u/.juju/environments", .file ""), ("/home/u/.juju", .dir)]⟩

/-! ## Properties of paths -/

theorem splitSlash_noslash (b : List Char) (hb : '/' ∉ b) : splitSlash b = [b] := by
  induction b with
  | nil => rfl
  | cons x xs ih =>
    have hx : x ≠ '/' := fun h => hb (by simp [h])
    have hxs : '/' ∉ xs := fun h => hb (by simp [h])
    simp [splitSlash, hx, ih hxs]

theorem splitSlash_append (a : List Char) :
    ∃ pre c, splitSlash a = pre ++ [c] ∧
      ∀ b, '/' ∉ b → splitSlash (a ++ b) = pre ++ [c ++ b] := by
  induction a with
  | nil => exact ⟨[], [], rfl, fun b hb => by simpa using splitSlash_noslash b hb⟩
  | cons x xs ih =>
    obtain ⟨pre, c, h1, h2⟩ := ih
    by_cases hx : x = '/'
    · exact ⟨[] :: pre, c, by simp [splitSlash, hx, h1],
        fun b hb => by simp [splitSlash, hx, h2 b hb]⟩
    · cases pre with
      | nil =>
        exact ⟨[], x :: c, by simp [splitSlash, hx, h1],
          fun b hb => by simp [splitSlash, hx, h2 b hb]⟩
      | cons p ps =>
        exact ⟨(x :: p) :: ps, c, by simp [splitSlash, hx, h1],
          fun b hb => by simp [splitSlash, hx, h2 b hb]⟩

theorem joinSlash_snoc (l : List (List Char)) :
    ∃ x, ∀ c, joinSlash (l ++ [c]) = x ++ c := by
  induction l with
  | nil => exact ⟨[], fun _ => rfl⟩
  | cons a l ih =>
    obtain ⟨x, hx⟩ := ih
    cases l with
    | nil => exact ⟨a ++ ['/'], fun c => by simp [joinSlash]⟩
    | cons b l =>
      refine ⟨a ++ '/' :: x, fun c => ?_⟩
      have h : joinSlash (a :: b :: l ++ [c]) = a ++ '/' :: joinSlash (b :: l ++ [c]) := rfl
      rw [h, hx c]; simp

/-- An ordinary last component is pushed by `cleanStep` whatever came before. -/
theorem cleanStep_ordinary (rooted : Bool) (st : List (List Char)) (c b : List Char)
    (hne : b ≠ []) (hdot : b.getLast? ≠ some '.') :
    cleanStep rooted st (c ++ b) = (c ++ b) :: st := by
  have hcb : c ++ b ≠ [] := by simp [hne]
  have hlast : (c ++ b).getLast? = b.getLast? := by
    rw [List.getLast?_append_of_ne_nil _ hne]
  have h1 : c ++ b ≠ ['.'] := by
    intro h; rw [h] at hlast; exact hdot (by simpa using hlast.symm)
  have h2 : c ++ b ≠ ['.', '.'] := by
    intro h; rw [h] at hlast; exact hdot (by simpa using hlast.symm)
  simp [cleanStep, hcb, h1, h2]

/-- A cleaned path whose last component is ordinary ends with that component. -/
theorem cleanChars_append (a b : List Char) (hb : '/' ∉ b) (hne : b ≠ [])
    (hdot : b.getLast? ≠ some '.') : ∃ x, cleanChars (a ++ b) = x ++ b := by
  obtain ⟨pre, c, _, h2⟩ := splitSlash_append a
  have hp : a ++ b ≠ [] := by simp [hne]
  unfold cleanChars
  simp only [hp, if_false, h2 b hb, List.foldl_append, List.foldl_cons, List.foldl_nil,
    cleanStep_ordinary _ _ c b hne hdot, List.reverse_cons]
  obtain ⟨x, hx⟩ := joinSlash_snoc (List.foldl (cleanStep (decide ((a ++ b).head? = some '/')))
    [] pre).reverse
  split
  · exact ⟨'/' :: (x ++ c), by rw [hx]; simp⟩
  · simp only [List.cons_ne_nil, if_false]
    exact ⟨x ++ c, by rw [hx]; simp⟩

theorem digit_char (m : Nat) :
    Char.ofNat (48 + m % 10) ≠ '/' ∧ Char.ofNat (48 + m % 10) ≠ '.' ∧
      Char.ofNat (48 + m % 10) ≠ 'l' := by
  have h : m % 10 < 10 := Nat.mod_lt _ (by decide)
  generalize m % 10 = k at h
  interval_cases k <;> decide

theorem digits9_noslash (n : Nat) : '/' ∉ digits9 n := by
  simp only [digits9, List.map_cons, List.map_nil, List.mem_cons, List.mem_nil_iff, or_false,
    not_or]
  refine ⟨?_, ?_, ?_, ?_, ?_, ?_, ?_, ?_, ?_⟩ <;> exact fun h => (digit_char _).1 h.symm

theorem digits9_getLast (n : Nat) :
    (digits9 n).getLast? = some (Char.ofNat (48 + n / 10 ^ 0 % 10)) := by
  simp [digits9]

/-- A name chosen by `TempFile` ends with a decimal digit. -/
theorem tempName_getLast (dir : String) (r : Nat) :
    ∃ m, (Join [dir, nextSuffix r]).data.getLast? = some (Char.ofNat (48 + m % 10)) := by
  have hne : digits9 (r % 10 ^ 9) ≠ [] := by simp [digits9]
  have hsuf : nextSuffix r ≠ "" := by
    intro h
    have h2 := congrArg String.data h
    exact hne h2
  have hdot : (digits9 (r % 10 ^ 9)).getLast? ≠ some '.' := by
    rw [digits9_getLast]
    exact fun h => (digit_char _).2.1 (Option.some.inj h)
  have key : ∀ a : List Char, (cleanChars (a ++ digits9 (r % 10 ^ 9))).getLast? =
      some (Char.ofNat (48 + (r % 10 ^ 9) / 10 ^ 0 % 10)) := by
    intro a
    obtain ⟨x, hx⟩ := cleanChars_append a _ (digits9_noslash _) hne hdot
    rw [hx, List.getLast?_append_of_ne_nil _ hne, digits9_getLast]
  refine ⟨(r % 10 ^ 9) / 10 ^ 0, ?_⟩
  by_cases hd : dir = ""
  · have h := key []
    simpa [Join, List.filter, hd, hsuf, Clean, joinSlash, nextSuffix] using h
  · have h := key (dir.data ++ ['/'])
    simpa [Join, List.filter, hd, hsuf, Clean, joinSlash, nextSuffix] using h

/-- The path of an environment ends with the letter that ends `.yaml`. -/
theorem envPath_getLast (d : diskStore) (envName : String) :
    (d.envPath envName).data.getLast? = some 'l' := by
  have hy : (".yaml" : String).data = ['.', 'y', 'a', 'm', 'l'] := rfl
  have hne : (envName ++ ".yaml") ≠ "" := by
    intro h
    have h2 := congrArg String.data h
    simp [hy] at h2
  have henv : ("environments" : String) ≠ "" := by decide
  have key : ∀ a : List Char, (cleanChars (a ++ ['.', 'y', 'a', 'm', 'l'])).getLast? =
      some 'l' := by
    intro a
    obtain ⟨x, hx⟩ := cleanChars_append a ['.', 'y', 'a', 'm', 'l'] (by decide) (by simp)
      (by decide)
    rw [hx]; simp
  by_cases hd : d.dir = ""
  · have h := key ("environments".data ++ '/' :: envName.data)
    simpa [diskStore.envPath, Join, List.filter, hd, hne, henv, Clean, joinSlash, hy] using h
  · have h := key (d.dir.data ++ '/' :: ("environments".data ++ '/' :: envName.data))
    simpa [diskStore.envPath, Join, List.filter, hd, hne, henv, Clean, joinSlash, hy] using h

/-- No environment path is a name that `TempFile` can choose. -/
theorem envPath_not_temp (d : diskStore) (envName : String) : ¬ IsTempName (d.envPath envName) := by
  rintro ⟨dir, r, h⟩
  obtain ⟨m, hm⟩ := tempName_getLast dir r
  rw [← h, envPath_getLast] at hm
  exact (digit_char m).2.2 (Option.some.inj hm).symm

theorem lookupNode_filter (l : List (String × Node)) (p q : String) :
    lookupNode (l.filter (fun e => !decide (e.1 = p))) q =
      if q = p then none else lookupNode l q := by
  induction l with
  | nil => simp [lookupNode]
  | cons e l ih =>
    by_cases he : e.1 = p
    · by_cases hq : q = p
      · subst hq
        simpa [List.filter, he] using ih
      · have : ¬ p = q := fun h => hq h.symm
        simp [List.filter, he, ih, hq, lookupNode, this]
    · by_cases hq : e.1 = q
      · have : ¬ q = p := fun h => he (hq.trans h)
        simp [List.filter, he, lookupNode, hq, this]
      · simp [List.filter, he, lookupNode, hq, ih]

theorem node_del (fs : FS) (p q : String) :
    (fs.del p).node q = if q = p then none else fs.node q := by
  simp [FS.del, FS.node, lookupNode_filter]

theorem node_set (fs : FS) (p q : String) (n : Node) :
    (fs.set p n).node q = if q = p then some n else fs.node q := by
  by_cases h : q = p
  · simp [FS.set, FS.node, lookupNode, h]
  · have h2 : ¬ p = q := fun e => h e.symm
    have := node_del fs p q
    simp only [FS.node, h, if_false] at this
    simp [FS.set, FS.node, lookupNode, h, h2, this]

theorem osOpenExcl_ok {fs fs1 : FS} {name : String} {fault : Option Fault}
    (h : osOpenExcl fs name fault = (none, fs1)) :
    fs.node name = none ∧ fs.parentError name = none ∧ fs1 = fs.set name (.file "") := by
  unfold osOpenExcl at h
  split at h
  · simp at h
  · split at h
    · simp at h
    · rename_i hn
      split at h
      · simp at h
      · rename_i hpe
        simp at h; exact ⟨hn, hpe, h.symm⟩

theorem osOpenExcl_err {fs fs1 : FS} {name : String} {fault : Option Fault} {e : Errno}
    (h : osOpenExcl fs name fault = (some e, fs1)) : fs1 = fs := by
  unfold osOpenExcl at h
  repeat' split at h
  all_goals simp at h
  all_goals exact h.2.symm

theorem osOpenExcl_exists {fs : FS} {name : String} (h : fs.node name ≠ none) :
    osOpenExcl fs name none = (some .EEXIST, fs) := by
  unfold osOpenExcl
  cases hn : fs.node name with
  | none => exact absurd hn h
  | some n => rfl

theorem osMkdir_ok {fs fs1 : FS} {name : String} {fault : Option Fault}
    (h : osMkdir fs name fault = (none, fs1)) :
    fs.node name = none ∧ fs1 = fs.set name .dir := by
  unfold osMkdir at h
  split at h
  · simp at h
  · split at h
    · simp at h
    · rename_i hn
      split at h
      · simp at h
      · simp at h; exact ⟨hn, h.symm⟩

theorem osMkdir_err {fs fs1 : FS} {name : String} {fault : Option Fault} {e : Errno}
    (h : osMkdir fs name fault = (some e, fs1)) :
    fs1 = fs ∧ (IsExist e = true → fs.node name ≠ none) := by
  unfold osMkdir at h
  split at h
  · rename_i f
    simp at h
    refine ⟨h.2.symm, ?_⟩
    rw [← h.1]; cases f <;> simp [IsExist, Fault.errno]
  · split at h
    · rename_i n hn
      simp at h
      exact ⟨h.2.symm, fun _ => by simp [hn]⟩
    · split at h
      · rename_i hn e1 he1
        simp at h
        refine ⟨h.2.symm, ?_⟩
        rw [← h.1]
        unfold FS.parentError at he1
        split at he1 <;> simp at he1 <;> rw [← he1] <;> simp [IsExist]
      · simp at h

theorem osMkdir_exists {fs : FS} {name : String} (h : fs.node name ≠ none) :
    osMkdir fs name none = (some .EEXIST, fs) := by
  unfold osMkdir
  cases hn : fs.node name with
  | none => exact absurd hn h
  | some n => rfl

theorem tempFileLoop_ok {fs fs1 : FS} {dir name : String} {rand : List Nat}
    (h : tempFileLoop fs dir rand = (.ok name, fs1)) :
    fs.node name = none ∧ fs1 = fs.set name (.file "") ∧ IsTempName name := by
  induction rand with
  | nil => simp [tempFileLoop] at h
  | cons r rs ih =>
    unfold tempFileLoop at h
    simp only at h
    split at h
    · rename_i fs2 ho
      simp only [Prod.mk.injEq, Except.ok.injEq] at h
      obtain ⟨h1, _, h2⟩ := osOpenExcl_ok ho
      rw [← h.1, ← h.2]
      exact ⟨h1, h2, dir, r, rfl⟩
    · rename_i e fs2 ho
      have := osOpenExcl_err ho
      subst this
      split at h
      · exact ih h
      · simp at h

theorem tempFileLoop_err {fs fs1 : FS} {dir : String} {rand : List Nat} {e : Errno}
    (h : tempFileLoop fs dir rand = (.error e, fs1)) : fs1 = fs := by
  induction rand with
  | nil => simp [tempFileLoop] at h; exact h.2.symm
  | cons r rs ih =>
    unfold tempFileLoop at h
    simp only at h
    split at h
    · simp at h
    · rename_i e1 fs2 ho
      have := osOpenExcl_err ho
      subst this
      split at h
      · exact ih h
      · simp at h; exact h.2.symm

theorem TempFile_ok {fs fs1 : FS} {dir name : String} {rand : List Nat} {fault : Option Fault}
    (h : TempFile fs dir rand fault = (.ok name, fs1)) :
    fs.node name = none ∧ fs1 = fs.set name (.file "") ∧ IsTempName name := by
  unfold TempFile at h
  split at h
  · simp at h
  · exact tempFileLoop_ok h

theorem TempFile_err {fs fs1 : FS} {dir : String} {rand : List Nat} {fault : Option Fault}
    {e : Errno} (h : TempFile fs dir rand fault = (.error e, fs1)) : fs1 = fs := by
  unfold TempFile at h
  split at h
  · simp at h; exact h.2.symm
  · exact tempFileLoop_err h

theorem osRename_ok {fs fs1 : FS} {old new : String} {fault : Option Fault}
    (h : osRename fs old new fault = (none, fs1)) :
    ∃ n, fs.node old = some n ∧
      ((old = new ∧ fs1 = fs) ∨ (old ≠ new ∧ fs1 = (fs.del old).set new n)) := by
  unfold osRename at h
  split at h
  · simp at h
  · split at h
    · simp at h
    · rename_i n hn
      refine ⟨n, hn, ?_⟩
      by_cases hon : old = new
      · simp [hon] at h
        exact Or.inl ⟨hon, h.symm⟩
      · simp only [hon, if_false] at h
        refine Or.inr ⟨hon, ?_⟩
        repeat' split at h
        all_goals simp at h
        all_goals exact h.symm

theorem osRename_err {fs fs1 : FS} {old new : String} {fault : Option Fault} {e : Errno}
    (h : osRename fs old new fault = (some e, fs1)) : fs1 = fs := by
  unfold osRename at h
  repeat' split at h
  all_goals simp at h
  all_goals exact h.2.symm

theorem osRemove_ok {fs fs1 : FS} {name : String} {fault : Option Fault}
    (h : osRemove fs name fault = (none, fs1)) : fs.node name ≠ none ∧ fs1 = fs.del name := by
  unfold osRemove at h
  split at h
  · simp at h
  · cases hn : fs.node name with
    | none => simp [hn] at h
    | some n =>
      refine ⟨by simp, ?_⟩
      rw [hn] at h
      cases n with
      | file data => simp at h; exact h.symm
      | dir =>
        simp only at h
        split at h
        · simp at h
        · simp at h; exact h.symm

theorem osRemove_err {fs fs1 : FS} {name : String} {fault : Option Fault} {e : Errno}
    (h : osRemove fs name fault = (some e, fs1)) : fs1 = fs := by
  unfold osRemove at h
  repeat' split at h
  all_goals simp at h
  all_goals exact h.2.symm

theorem osRemove_frame (fs : FS) (name : String) (fault : Option Fault) :
    (osRemove fs name fault).2 = fs ∨ (osRemove fs name fault).2 = fs.del name := by
  cases h : osRemove fs name fault with
  | mk e fs1 =>
    cases e with
    | none => exact Or.inr (osRemove_ok h).2
    | some e => exact Or.inl (osRemove_err h)

/-! ## Properties of `Write` -/

/-- Every run of `Write` is of one of six shapes: the marshalling failed; no
temporary file was created; the temporary file `tmp` (a new name) was created
and its write failed leaving `part` in it; the rename failed and the temporary
file was or was not removed; or the rename succeeded. -/
theorem Write_cases (y : YAML) (info : environInfo) (fs : FS) (env : WriteEnv) :
    (∃ msg, Marshal y info = .error msg ∧
      info.Write y fs env = ⟨some (.cannotMarshal msg), info, fs, []⟩) ∨
    (∃ data, Marshal y info = .ok data ∧
      ((∃ e, info.Write y fs env = ⟨some (.cannotCreateTemp e), info, fs, [fs]⟩) ∨
       (∃ tmp, fs.node tmp = none ∧ IsTempName tmp ∧
        ((∃ e part, info.Write y fs env =
            ⟨some (.cannotWriteTemp e), info, (fs.set tmp (.file "")).set tmp (.file part),
              [fs.set tmp (.file ""), (fs.set tmp (.file "")).set tmp (.file part)]⟩) ∨
         (∃ e fs4, (fs4 = (fs.set tmp (.file "")).set tmp (.file data) ∨
              fs4 = ((fs.set tmp (.file "")).set tmp (.file data)).del tmp) ∧
            info.Write y fs env =
              ⟨some (.cannotRename e), info, fs4,
                [fs.set tmp (.file ""), (fs.set tmp (.file "")).set tmp (.file data),
                 (fs.set tmp (.file "")).set tmp (.file data), fs4]⟩) ∨
         (tmp = info.path ∧ info.Write y fs env =
              ⟨none, { info with initialized := true },
                (fs.set tmp (.file "")).set tmp (.file data),
                [fs.set tmp (.file ""), (fs.set tmp (.file "")).set tmp (.file data),
                 (fs.set tmp (.file "")).set tmp (.file data)]⟩) ∨
         (tmp ≠ info.path ∧ info.Write y fs env =
              ⟨none, { info with initialized := true },
                (((fs.set tmp (.file "")).set tmp (.file data)).del tmp).set info.path
                  (.file data),
                [fs.set tmp (.file ""), (fs.set tmp (.file "")).set tmp (.file data),
                 (((fs.set tmp (.file "")).set tmp (.file data)).del tmp).set info.path
                  (.file data)]⟩))))) := by
  cases hm : Marshal y info with
  | error msg => exact Or.inl ⟨msg, rfl, by simp [environInfo.Write, hm]⟩
  | ok data =>
    refine Or.inr ⟨data, rfl, ?_⟩
    cases ht : TempFile fs (SplitDir info.path) env.rand env.fTemp with
    | mk rt fs1 =>
      cases rt with
      | error e =>
        have := TempFile_err ht
        subst this
        exact Or.inl ⟨e, by simp [environInfo.Write, hm, ht]⟩
      | ok tmp =>
        obtain ⟨hfresh, hfs1, htmp⟩ := TempFile_ok ht
        subst hfs1
        refine Or.inr ⟨tmp, hfresh, htmp, ?_⟩
        cases hw : env.fWrite with
        | some fn =>
          obtain ⟨f, n⟩ := fn
          exact Or.inl ⟨f.errno, String.mk (data.data.take n),
            by simp [environInfo.Write, hm, ht, fileWrite, hw]⟩
        | none =>
          refine Or.inr ?_
          cases hr : osRename ((fs.set tmp (.file "")).set tmp (.file data)) tmp info.path
            env.fRename with
          | mk re fs3 =>
            cases re with
            | some e =>
              have := osRename_err hr
              subst this
              refine Or.inl ⟨e, _, osRemove_frame _ tmp env.fRemove, ?_⟩
              simp [environInfo.Write, hm, ht, fileWrite, hw, hr]
            | none =>
              obtain ⟨n, hn, hcase⟩ := osRename_ok hr
              have hn2 : n = .file data := by
                rw [node_set] at hn
                simpa using hn.symm
              subst hn2
              rcases hcase with ⟨heq, h3⟩ | ⟨hne, h3⟩
              · subst h3
                exact Or.inr (Or.inl ⟨heq, by simp [environInfo.Write, hm, ht, fileWrite, hw, hr]⟩)
              · subst h3
                exact Or.inr (Or.inr ⟨hne, by simp [environInfo.Write, hm, ht, fileWrite, hw, hr]⟩)

/-- At a path that exists or cannot be a temporary name, every state that
`Write` passes through (its final state included) either has what was there
before, or, at the handle's own path, the complete marshalled record. -/
theorem Write_node (y : YAML) (info : environInfo) (fs : FS) (env : WriteEnv) (q : String)
    (hq : fs.node q ≠ none ∨ ¬ IsTempName q) :
    ∀ s ∈ (info.Write y fs env).fs :: (info.Write y fs env).steps,
      s.node q = fs.node q ∨
        (q = info.path ∧ ∃ data, Marshal y info = .ok data ∧ s.node q = some (.file data)) := by
  have hne : ∀ tmp, fs.node tmp = none → IsTempName tmp → q ≠ tmp := by
    intro tmp h1 h2 h
    subst h
    rcases hq with h | h
    · exact h h1
    · exact h h2
  rcases Write_cases y info fs env with ⟨msg, _, hW⟩ | ⟨data, hm, hrest⟩
  · rw [hW]
    simp
  · rcases hrest with ⟨e, hW⟩ | ⟨tmp, hfresh, htmp, hrest⟩
    · rw [hW]
      simp
    · have hqt := hne tmp hfresh htmp
      rcases hrest with ⟨e, part, hW⟩ | ⟨e, fs4, h4, hW⟩ | ⟨_, hW⟩ | ⟨hne2, hW⟩
      · rw [hW]
        simp [node_set, hqt]
      · rw [hW]
        have h4n : fs4.node q = fs.node q := by
          rcases h4 with h | h <;> subst h <;> simp [node_set, node_del, hqt]
        simp [node_set, hqt, h4n]
      · rw [hW]
        simp [node_set, hqt]
      · rw [hW]
        by_cases hqp : q = info.path
        · have h3 : ((((fs.set tmp (.file "")).set tmp (.file data)).del tmp).set info.path
              (.file data)).node q = some (.file data) := by simp [node_set, hqp]
          simp only [List.forall_mem_cons, List.not_mem_nil, false_imp_iff, implies_true,
            and_true]
          exact ⟨Or.inr ⟨hqp, data, hm, h3⟩, by simp [node_set, hqt], by simp [node_set, hqt],
            Or.inr ⟨hqp, data, hm, h3⟩⟩
        · simp [node_set, node_del, hqt, hqp]

/-- A successful `Write` leaves the complete marshalled record at the handle's
path and marks the handle as initialized. -/
theorem Write_success (y : YAML) (info : environInfo) (fs : FS) (env : WriteEnv)
    (h : (info.Write y fs env).err = none) :
    ∃ data, Marshal y info = .ok data ∧
      (info.Write y fs env).fs.node info.path = some (.file data) ∧
      (info.Write y fs env).info = { info with initialized := true } := by
  rcases Write_cases y info fs env with ⟨msg, _, hW⟩ | ⟨data, hm, hrest⟩
  · rw [hW] at h; simp at h
  · refine ⟨data, hm, ?_⟩
    rcases hrest with ⟨e, hW⟩ | ⟨tmp, hfresh, htmp, hrest⟩
    · rw [hW] at h; simp at h
    · rcases hrest with ⟨e, part, hW⟩ | ⟨e, fs4, h4, hW⟩ | ⟨heq, hW⟩ | ⟨hne2, hW⟩
      · rw [hW] at h; simp at h
      · rw [hW] at h; simp at h
      · rw [hW]; simp [node_set, heq]
      · rw [hW]; simp [node_set]

/-- A failed `Write` reports one of its four failures and returns the handle as it was. -/
theorem Write_failure (y : YAML) (info : environInfo) (fs : FS) (env : WriteEnv) (err : Error)
    (h : (info.Write y fs env).err = some err) :
    ((∃ msg, err = .cannotMarshal msg) ∨ (∃ e, err = .cannotCreateTemp e) ∨
      (∃ e, err = .cannotWriteTemp e) ∨ (∃ e, err = .cannotRename e)) ∧
    (info.Write y fs env).info = info := by
  rcases Write_cases y info fs env with ⟨msg, _, hW⟩ | ⟨data, hm, hrest⟩
  · rw [hW] at h ⊢; simp at h; exact ⟨Or.inl ⟨msg, h.symm⟩, rfl⟩
  · rcases hrest with ⟨e, hW⟩ | ⟨tmp, hfresh, htmp, hrest⟩
    · rw [hW] at h ⊢; simp at h; exact ⟨Or.inr (Or.inl ⟨e, h.symm⟩), rfl⟩
    · rcases hrest with ⟨e, part, hW⟩ | ⟨e, fs4, h4, hW⟩ | ⟨heq, hW⟩ | ⟨hne2, hW⟩
      · rw [hW] at h ⊢; simp at h; exact ⟨Or.inr (Or.inr (Or.inl ⟨e, h.symm⟩)), rfl⟩
      · rw [hW] at h ⊢; simp at h; exact ⟨Or.inr (Or.inr (Or.inr ⟨e, h.symm⟩)), rfl⟩
      · rw [hW] at h; simp at h
      · rw [hW] at h; simp at h

/-- A failed `Write` leaves a path that exists or cannot be a temporary name as it was. -/
theorem Write_failure_node (y : YAML) (info : environInfo) (fs : FS) (env : WriteEnv)
    (err : Error) (h : (info.Write y fs env).err = some err) (q : String)
    (hq : fs.node q ≠ none ∨ ¬ IsTempName q) :
    (info.Write y fs env).fs.node q = fs.node q := by
  have hne : ∀ tmp, fs.node tmp = none → IsTempName tmp → q ≠ tmp := by
    intro tmp h1 h2 h
    subst h
    rcases hq with h | h
    · exact h h1
    · exact h h2
  rcases Write_cases y info fs env with ⟨msg, _, hW⟩ | ⟨data, hm, hrest⟩
  · rw [hW]
  · rcases hrest with ⟨e, hW⟩ | ⟨tmp, hfresh, htmp, hrest⟩
    · rw [hW]
    · have hqt := hne tmp hfresh htmp
      rcases hrest with ⟨e, part, hW⟩ | ⟨e, fs4, h4, hW⟩ | ⟨heq, hW⟩ | ⟨hne2, hW⟩
      · rw [hW]; simp [node_set, hqt]
      · rw [hW]
        rcases h4 with h4 | h4 <;> subst h4 <;> simp [node_set, node_del, hqt]
      · rw [hW] at h; simp at h
      · rw [hW] at h; simp at h

/-! ## Properties of `CreateInfo`, `ReadInfo` and `Destroy` -/

theorem mkEnvironmentsDir_ok {d : diskStore} {fs fs1 : FS} {fault : Option Fault}
    (h : d.mkEnvironmentsDir fs fault = (none, fs1)) :
    (fs1 = fs ∨ (fs.node (Join [d.dir, "environments"]) = none ∧
        fs1 = fs.set (Join [d.dir, "environments"]) .dir)) ∧
      fs1.node (Join [d.dir, "environments"]) ≠ none := by
  unfold diskStore.mkEnvironmentsDir at h
  split at h
  · rename_i fs2 hm
    simp only [Prod.mk.injEq, true_and] at h
    subst h
    obtain ⟨h1, h2⟩ := osMkdir_ok hm
    subst h2
    exact ⟨Or.inr ⟨h1, rfl⟩, by simp [node_set]⟩
  · rename_i err fs2 hm
    obtain ⟨h1, h2⟩ := osMkdir_err hm
    subst h1
    split at h
    · rename_i hex
      simp only [Prod.mk.injEq, true_and] at h
      subst h
      exact ⟨Or.inl rfl, h2 hex⟩
    · simp at h

theorem mkEnvironmentsDir_err {d : diskStore} {fs fs1 : FS} {fault : Option Fault} {e : Errno}
    (h : d.mkEnvironmentsDir fs fault = (some e, fs1)) : fs1 = fs := by
  unfold diskStore.mkEnvironmentsDir at h
  split at h
  · simp at h
  · rename_i err fs2 hm
    obtain ⟨h1, _⟩ := osMkdir_err hm
    subst h1
    split at h <;> simp at h
    exact h.2.symm

/-- A successful `CreateInfo` returns the fresh handle and has created the
empty placeholder at a path that had no entry and lies in an existing
directory, after making sure the environments directory exists. -/
theorem CreateInfo_ok {d : diskStore} {fs : FS} {envName : String} {fMkdir fOpen : Option Fault}
    {info : environInfo} (h : (d.CreateInfo fs envName fMkdir fOpen).1 = .ok info) :
    info = { environInfo.zero with created := true, path := d.envPath envName } ∧
    ∃ fs1, (fs1 = fs ∨ (fs.node (Join [d.dir, "environments"]) = none ∧
        fs1 = fs.set (Join [d.dir, "environments"]) .dir)) ∧
      fs1.node (Join [d.dir, "environments"]) ≠ none ∧
      fs1.node (d.envPath envName) = none ∧
      fs1.parentError (d.envPath envName) = none ∧
      (d.CreateInfo fs envName fMkdir fOpen).2 = fs1.set (d.envPath envName) (.file "") := by
  unfold diskStore.CreateInfo at h ⊢
  cases hm : d.mkEnvironmentsDir fs fMkdir with
  | mk e fs1 =>
    rw [hm] at h
    cases e with
    | some e => simp at h
    | none =>
      obtain ⟨h1, h2⟩ := mkEnvironmentsDir_ok hm
      simp only at h ⊢
      cases ho : osOpenExcl fs1 (d.envPath envName) fOpen with
      | mk e2 fs2 =>
        rw [ho] at h
        cases e2 with
        | some e2 =>
          simp only at h
          split at h <;> simp at h
        | none =>
          obtain ⟨h3, h4, h5⟩ := osOpenExcl_ok ho
          simp only [Except.ok.injEq] at h
          exact ⟨h.symm, fs1, h1, h2, h3, h4, h5⟩

/-- A failing `CreateInfo` has at most created the environments directory. -/
theorem CreateInfo_err {d : diskStore} {fs : FS} {envName : String} {fMkdir fOpen : Option Fault}
    {err : Error} (h : (d.CreateInfo fs envName fMkdir fOpen).1 = .error err) :
    (d.CreateInfo fs envName fMkdir fOpen).2 = fs ∨
      (fs.node (Join [d.dir, "environments"]) = none ∧
        (d.CreateInfo fs envName fMkdir fOpen).2 = fs.set (Join [d.dir, "environments"]) .dir) := by
  unfold diskStore.CreateInfo at h ⊢
  cases hm : d.mkEnvironmentsDir fs fMkdir with
  | mk e fs1 =>
    rw [hm] at h
    cases e with
    | some e => exact Or.inl (mkEnvironmentsDir_err hm)
    | none =>
      obtain ⟨h1, _⟩ := mkEnvironmentsDir_ok hm
      simp only at h ⊢
      cases ho : osOpenExcl fs1 (d.envPath envName) fOpen with
      | mk e2 fs2 =>
        rw [ho] at h
        cases e2 with
        | none => simp at h
        | some e2 =>
          have := osOpenExcl_err ho
          subst this
          rcases h1 with h1 | ⟨h1, h2⟩
          · subst h1
            left
            by_cases hx : IsExist e2 = true <;> simp [hx]
          · subst h2
            right
            exact ⟨h1, by by_cases hx : IsExist e2 = true <;> simp [hx]⟩

/-- Where the environments directory and the environment's artifact both exist,
`CreateInfo` changes nothing and fails: with the error of an injected fault if
there is one, and with `ErrEnvironInfoAlreadyExists` otherwise. -/
theorem CreateInfo_existing (d : diskStore) (fs : FS) (envName : String)
    (hdir : fs.node (Join [d.dir, "environments"]) ≠ none)
    (hp : fs.node (d.envPath envName) ≠ none) (fMkdir fOpen : Option Fault) :
    d.CreateInfo fs envName fMkdir fOpen =
      (.error (match fMkdir, fOpen with
        | some f, _ => .os f.errno
        | none, some f => .os f.errno
        | none, none => .ErrEnvironInfoAlreadyExists), fs) := by
  have hfault : ∀ f : Fault, IsExist f.errno = false := by
    intro f; cases f <;> rfl
  cases fMkdir with
  | some f =>
    simp [diskStore.CreateInfo, diskStore.mkEnvironmentsDir, osMkdir, hfault]
  | none =>
    have hmk : d.mkEnvironmentsDir fs none = (none, fs) := by
      simp [diskStore.mkEnvironmentsDir, osMkdir_exists hdir, IsExist]
    cases fOpen with
    | some f => simp [diskStore.CreateInfo, hmk, osOpenExcl, hfault]
    | none => simp [diskStore.CreateInfo, hmk, osOpenExcl_exists hp, IsExist]

/-- After a successful `CreateInfo` the artifact and the environments directory exist. -/
theorem CreateInfo_reserves {d : diskStore} {fs : FS} {envName : String}
    {fMkdir fOpen : Option Fault} {info : environInfo}
    (h : (d.CreateInfo fs envName fMkdir fOpen).1 = .ok info) :
    (d.CreateInfo fs envName fMkdir fOpen).2.node (d.envPath envName) = some (.file "") ∧
    (d.CreateInfo fs envName fMkdir fOpen).2.node (Join [d.dir, "environments"]) ≠ none := by
  obtain ⟨_, fs1, _, h2, _, _, h4⟩ := CreateInfo_ok h
  rw [h4]
  refine ⟨by simp [node_set], ?_⟩
  rw [node_set]
  split
  · simp
  · exact h2

/-- An entry that exists before `Write` exists after it. -/
theorem Write_keeps_entry (y : YAML) (info : environInfo) (fs : FS) (env : WriteEnv) (q : String)
    (hq : fs.node q ≠ none) : (info.Write y fs env).fs.node q ≠ none := by
  rcases Write_node y info fs env q (Or.inl hq) _ (List.mem_cons_self _ _) with h | ⟨_, _, _, h⟩
  · rw [h]; exact hq
  · rw [h]; simp

theorem setField_frame (info : environInfo) (kv : String × YNode) :
    (info.setField kv).path = info.path ∧ (info.setField kv).created = info.created ∧
      (info.setField kv).initialized = info.initialized := by
  unfold environInfo.setField
  repeat' split
  all_goals exact ⟨rfl, rfl, rfl⟩

theorem foldl_setField_frame (doc : Document) (info : environInfo) :
    (doc.foldl environInfo.setField info).path = info.path ∧
      (doc.foldl environInfo.setField info).created = info.created := by
  induction doc generalizing info with
  | nil => exact ⟨rfl, rfl⟩
  | cons kv rest ih =>
    obtain ⟨h1, h2⟩ := ih (info.setField kv)
    obtain ⟨h3, h4, _⟩ := setField_frame info kv
    exact ⟨by rw [List.foldl_cons, h1, h3], by rw [List.foldl_cons, h2, h4]⟩

/-- Every handle that `ReadInfo` returns has the path of the environment and is
not marked as created. -/
theorem ReadInfo_ok {y : YAML} {d : diskStore} {fs : FS} {envName : String}
    {fault : Option Fault} {info : environInfo} (h : d.ReadInfo y fs envName fault = .ok info) :
    info.path = d.envPath envName ∧ info.created = false := by
  unfold diskStore.ReadInfo at h
  simp only at h
  split at h
  · split at h <;> simp at h
  · split at h
    · simp only [Except.ok.injEq] at h
      rw [← h]; exact ⟨rfl, rfl⟩
    · unfold Unmarshal at h
      split at h
      · simp at h
      · rename_i info1 hu
        split at hu
        · simp at hu
        · rename_i doc _
          simp only [Except.ok.injEq] at hu h
          obtain ⟨h1, h2⟩ := foldl_setField_frame doc { environInfo.zero with path := d.envPath envName }
          rw [← h, ← hu]
          exact ⟨h1, h2⟩

/-- An empty artifact is read as the uninitialized handle with zero fields. -/
theorem ReadInfo_empty (y : YAML) (d : diskStore) (fs : FS) (envName : String)
    (h : fs.node (d.envPath envName) = some (.file "")) :
    d.ReadInfo y fs envName none = .ok { environInfo.zero with path := d.envPath envName } := by
  simp [diskStore.ReadInfo, ReadFile, h]

/-- Where the path has no entry but its directory exists, `ReadInfo` reports NotFound. -/
theorem ReadInfo_absent (y : YAML) (d : diskStore) (fs : FS) (envName : String)
    (hn : fs.node (d.envPath envName) = none) (hpe : fs.parentError (d.envPath envName) = none) :
    d.ReadInfo y fs envName none = .error (.NotFound envName) := by
  simp [diskStore.ReadInfo, ReadFile, hn, hpe, IsNotExist]

theorem set_length_snoc {α : Type} (l : List α) (a b : α) :
    (l ++ [a]).set l.length b = l ++ [b] := by
  induction l with
  | nil => rfl
  | cons x xs ih => simp [List.set, ih]

/-- Any implementation that passes `TestEnsureAdminUser` has caused one service
start and one service stop when the second call of the test returns. -/
theorem TestEnsureAdminUser_counts
    (impl : EnsureAdminUserParams → MongoWorld → (Bool × Option String) × MongoWorld)
    (port : Nat) (h : TestEnsureAdminUser impl port = true) :
    (impl ⟨["localhost:" ++ toString port], port, "whomever", "whatever"⟩
      (impl ⟨["localhost:" ++ toString port], port, "whomever", "whatever"⟩
        freshWorld).2).2.suite = ⟨1, 1⟩ := by
  simp only [TestEnsureAdminUser, Bool.and_eq_true, decide_eq_true_eq] at h
  obtain ⟨⟨_, h1⟩, h2⟩ := h
  cases hs : (impl ⟨["localhost:" ++ toString port], port, "whomever", "whatever"⟩
      (impl ⟨["localhost:" ++ toString port], port, "whomever", "whatever"⟩
        freshWorld).2).2.suite with
  | mk a b =>
    rw [hs] at h1 h2
    simp only at h1 h2
    rw [h1, h2]

/-- The model of `EnsureAdminUser` passes the repository's test. -/
theorem EnsureAdminUser_passes_test (port : Nat) :
    TestEnsureAdminUser EnsureAdminUser port = true := by
  simp [TestEnsureAdminUser, EnsureAdminUser, freshWorld, UpstartServiceStop,
    UpstartServiceStart]

/-- The protocol of section 4.2 taken by its letter fails the repository's test:
its second call stops and starts the service once more. -/
theorem EnsureAdminUserByTheLetter_fails_test (port : Nat) :
    TestEnsureAdminUser EnsureAdminUserByTheLetter port = false := by
  simp [TestEnsureAdminUser, EnsureAdminUserByTheLetter, freshWorld, UpstartServiceStop,
    UpstartServiceStart]

theorem parentError_none_iff (fs : FS) (p : String) :
    fs.parentError p = none ↔ fs.node (Dir p) = some .dir := by
  unfold FS.parentError
  cases h : fs.node (Dir p) with
  | none => simp
  | some n => cases n <;> simp

/-- Where the environments directory exists, the path has no entry and its
directory exists, `CreateInfo` without fault creates the placeholder and
returns the fresh handle. -/
theorem CreateInfo_fresh (d : diskStore) (fs : FS) (envName : String)
    (hdir : fs.node (Join [d.dir, "environments"]) ≠ none)
    (hp : fs.node (d.envPath envName) = none)
    (hpe : fs.parentError (d.envPath envName) = none) :
    d.CreateInfo fs envName none none =
      (.ok { environInfo.zero with created := true, path := d.envPath envName },
        fs.set (d.envPath envName) (.file "")) := by
  have hmk : d.mkEnvironmentsDir fs none = (none, fs) := by
    simp [diskStore.mkEnvironmentsDir, osMkdir_exists hdir, IsExist]
  simp [diskStore.CreateInfo, hmk, osOpenExcl, hp, hpe]

/-- The file read of an existing entry depends on that entry only. -/
theorem ReadFile_congr {fs fs1 : FS} {p : String} (fault : Option Fault)
    (h : fs1.node p = fs.node p) (hn : fs.node p ≠ none) :
    ReadFile fs1 p fault = ReadFile fs p fault := by
  unfold ReadFile
  rw [h]
  cases hfs : fs.node p with
  | none => exact absurd hfs hn
  | some n => cases fault <;> cases n <;> rfl

/-- The result of `ReadInfo` is determined by the result of the file read. -/
theorem ReadInfo_congr (y : YAML) (d : diskStore) {fs fs1 : FS} (envName : String)
    (fault : Option Fault)
    (h : ReadFile fs1 (d.envPath envName) fault = ReadFile fs (d.envPath envName) fault) :
    d.ReadInfo y fs1 envName fault = d.ReadInfo y fs envName fault := by
  unfold diskStore.ReadInfo
  simp only [h]

/-- Where the artifact of a name exists, `CreateInfo` of the name fails. -/
theorem CreateInfo_fails_of_entry (d : diskStore) (fs : FS) (envName : String)
    (fMkdir fOpen : Option Fault) (h : fs.node (d.envPath envName) ≠ none) :
    ∃ err, (d.CreateInfo fs envName fMkdir fOpen).1 = .error err := by
  cases hr : (d.CreateInfo fs envName fMkdir fOpen).1 with
  | error err => exact ⟨err, rfl⟩
  | ok info =>
    exfalso
    obtain ⟨_, fs1, h1, _, h3, _, _⟩ := CreateInfo_ok hr
    rcases h1 with h1 | ⟨_, h1⟩
    · subst h1
      exact h h3
    · subst h1
      rw [node_set] at h3
      split at h3
      · simp at h3
      · exact h h3

/-- C1, exclusive creation: once `CreateInfo` has succeeded for a name, a second
`CreateInfo` of that name on the same store changes nothing and fails with
`ErrEnvironInfoAlreadyExists`, both directly afterwards and after a `Write`
(successful or not) on a handle for the reserved path, whatever was set on it.
Under an injected fault the second call fails as well. -/
theorem C1_exclusive_creation (y : YAML) (d : diskStore) (fs : FS) (envName : String)
    (fMkdir fOpen : Option Fault) (info : environInfo)
    (h : (d.CreateInfo fs envName fMkdir fOpen).1 = .ok info) :
    ∀ fs2, (fs2 = (d.CreateInfo fs envName fMkdir fOpen).2 ∨
        ∃ (info1 : environInfo) (env : WriteEnv), info1.path = info.path ∧
          fs2 = (info1.Write y (d.CreateInfo fs envName fMkdir fOpen).2 env).fs) →
      d.CreateInfo fs2 envName none none = (.error .ErrEnvironInfoAlreadyExists, fs2) ∧
      ∀ f g, ∃ e, d.CreateInfo fs2 envName f g = (.error e, fs2) := by
  obtain ⟨h1, h2⟩ := CreateInfo_reserves h
  intro fs2 hfs2
  have hres : fs2.node (d.envPath envName) ≠ none ∧
      fs2.node (Join [d.dir, "environments"]) ≠ none := by
    rcases hfs2 with hfs2 | ⟨info1, env, _, hfs2⟩
    · subst hfs2
      exact ⟨by rw [h1]; simp, h2⟩
    · subst hfs2
      exact ⟨Write_keeps_entry _ _ _ _ _ (by rw [h1]; simp), Write_keeps_entry _ _ _ _ _ h2⟩
  exact ⟨CreateInfo_existing d fs2 envName hres.2 hres.1 none none,
    fun f g => ⟨_, CreateInfo_existing d fs2 envName hres.2 hres.1 f g⟩⟩

/-- Exclusive creation on the sample store: `env1` is reserved, then refused. -/
theorem C1_exclusive_creation_witness :
    (sampleStore.CreateInfo sampleFS "env1" none none).1 = .ok sampleCreated ∧
    sampleStore.CreateInfo sampleReservedFS "env1" none none =
      (.error .ErrEnvironInfoAlreadyExists, sampleReservedFS) :=
  ⟨rfl, (C1_exclusive_creation lineYAML sampleStore sampleFS "env1" none none sampleCreated rfl
    sampleReservedFS (Or.inl rfl)).1⟩

set_option maxRecDepth 8000 in
/-- C2 as stated fails for a bootstrap config with the key `<<`: `CreateInfo`
returns a handle, the three setters succeed and `Write` succeeds, but the YAML
library, which reads `<<` as a merge key, refuses what was written, so `ReadInfo`
of the name fails with an unmarshalling error and returns no handle. -/
theorem C2_merge_key_not_read_back :
    sampleStore.CreateInfo sampleFS "env1" none none = (.ok sampleCreated, sampleReservedFS) ∧
    ((sampleCreated.SetAPICredentials ⟨"admin", "secret"⟩).SetAPIEndpoint
      ⟨["10.0.0.1:17070"], "CERT"⟩).SetBootstrapConfig [("<<", .str "x")]
        = .ok sampleMergeInfo ∧
    (sampleMergeInfo.Write mergeKeyYAML sampleReservedFS sampleWriteEnv).err = none ∧
    sampleStore.ReadInfo mergeKeyYAML
        (sampleMergeInfo.Write mergeKeyYAML sampleReservedFS sampleWriteEnv).fs "env1" none
      = .error (.unmarshalling "/home/u/.juju/environments/env1.yaml"
          "map merge requires map or sequence of maps as the value") :=
  ⟨rfl, rfl, by decide, rfl⟩

/-- C3, atomic write: for a handle of the store (its path is the path of an
environment), `Write` either succeeds, and then the artifact at the handle's
path holds the complete marshalled record and the handle is initialized, or it
fails at marshalling, temporary-file creation, temporary-file write or rename,
and then the artifact (or its absence) and the handle are as before the call.
In every state that `Write` passes through, the artifact is what it was before
or the complete record. -/
theorem C3_atomic_write (y : YAML) (d : diskStore) (envName : String) (info : environInfo)
    (fs : FS) (env : WriteEnv) (hpath : info.path = d.envPath envName) :
    (((info.Write y fs env).err = none ∧
        (∃ data, Marshal y info = .ok data ∧
          (info.Write y fs env).fs.node info.path = some (.file data)) ∧
        (info.Write y fs env).info.initialized = true) ∨
      (∃ err, (info.Write y fs env).err = some err ∧
        ((∃ msg, err = .cannotMarshal msg) ∨ (∃ e, err = .cannotCreateTemp e) ∨
          (∃ e, err = .cannotWriteTemp e) ∨ (∃ e, err = .cannotRename e)) ∧
        (info.Write y fs env).fs.node info.path = fs.node info.path ∧
        (info.Write y fs env).info = info)) ∧
    ∀ s ∈ (info.Write y fs env).steps,
      s.node info.path = fs.node info.path ∨
        ∃ data, Marshal y info = .ok data ∧ s.node info.path = some (.file data) := by
  have hq : fs.node info.path ≠ none ∨ ¬ IsTempName info.path :=
    Or.inr (hpath ▸ envPath_not_temp d envName)
  constructor
  · cases herr : (info.Write y fs env).err with
    | none =>
      obtain ⟨data, hm, hn, hi⟩ := Write_success y info fs env herr
      exact Or.inl ⟨rfl, ⟨data, hm, hn⟩, by rw [hi]⟩
    | some err =>
      obtain ⟨hk, hi⟩ := Write_failure y info fs env err herr
      exact Or.inr ⟨err, rfl, hk, Write_failure_node y info fs env err herr _ hq, hi⟩
  · intro s hs
    rcases Write_node y info fs env info.path hq s (List.mem_cons_of_mem _ hs) with h | ⟨_, h⟩
    · exact Or.inl h
    · exact Or.inr h

/-- Atomic write on the sample store: a successful run and its intermediate states. -/
theorem C3_atomic_write_witness :
    sampleInfo.path = sampleStore.envPath "env1" ∧
    (sampleInfo.Write lineYAML sampleReservedFS sampleWriteEnv).err = none ∧
    ∀ s ∈ (sampleInfo.Write lineYAML sampleReservedFS sampleWriteEnv).steps,
      s.node sampleInfo.path = sampleReservedFS.node sampleInfo.path ∨
        ∃ data, Marshal lineYAML sampleInfo = .ok data ∧
          s.node sampleInfo.path = some (.file data) :=
  ⟨by decide, by decide,
    (C3_atomic_write lineYAML sampleStore "env1" sampleInfo sampleReservedFS sampleWriteEnv
      (by decide)).2⟩

/-- C4, guard of the bootstrap config: `SetBootstrapConfig` panics exactly when
the handle's created flag is false, and otherwise sets `BootstrapConfig` to the
given attributes and nothing else. `CreateInfo` returns handles with the flag
set; the other setters and `Write` leave the flag as it is; every handle that
`ReadInfo` returns, in whatever file-system state, has the flag unset, so
`SetBootstrapConfig` panics on it. -/
theorem C4_bootstrap_config_guard :
    (∀ (info : environInfo) (attrs : List (String × Value)),
      ((∃ msg, info.SetBootstrapConfig attrs = .error msg) ↔ info.created = false) ∧
      (info.created = true →
        info.SetBootstrapConfig attrs = .ok { info with Config := attrs } ∧
        ({ info with Config := attrs } : environInfo).BootstrapConfig = attrs)) ∧
    (∀ (d : diskStore) (fs : FS) (envName : String) (fMkdir fOpen : Option Fault)
        (info : environInfo),
      (d.CreateInfo fs envName fMkdir fOpen).1 = .ok info → info.created = true) ∧
    (∀ (y : YAML) (d : diskStore) (fs : FS) (envName : String) (fault : Option Fault)
        (info : environInfo) (attrs : List (String × Value)),
      d.ReadInfo y fs envName fault = .ok info →
        info.created = false ∧ ∃ msg, info.SetBootstrapConfig attrs = .error msg) ∧
    (∀ (y : YAML) (info : environInfo) (fs : FS) (env : WriteEnv) (endpoint : APIEndpoint)
        (creds : APICredentials),
      (info.SetAPIEndpoint endpoint).created = info.created ∧
      (info.SetAPICredentials creds).created = info.created ∧
      (info.Write y fs env).info.created = info.created) := by
  refine ⟨?_, ?_, ?_, ?_⟩
  · intro info attrs
    cases hc : info.created <;> simp [environInfo.SetBootstrapConfig, hc, environInfo.BootstrapConfig]
  · intro d fs envName fMkdir fOpen info h
    rw [(CreateInfo_ok h).1]
  · intro y d fs envName fault info attrs h
    have hc := (ReadInfo_ok h).2
    exact ⟨hc, by simp [environInfo.SetBootstrapConfig, hc]⟩
  · intro y info fs env endpoint creds
    refine ⟨rfl, rfl, ?_⟩
    cases herr : (info.Write y fs env).err with
    | none =>
      obtain ⟨_, _, _, hi⟩ := Write_success y info fs env herr
      rw [hi]
    | some err => rw [(Write_failure y info fs env err herr).2]

/-- The handle read back from the reserved sample store refuses a bootstrap config. -/
theorem C4_bootstrap_config_guard_witness :
    sampleStore.ReadInfo lineYAML sampleReservedFS "env1" none =
        .ok { environInfo.zero with path := "/home/u/.juju/environments/env1.yaml" } ∧
    ∃ msg, ({ environInfo.zero with path := "/home/u/.juju/environments/env1.yaml" } :
      environInfo).SetBootstrapConfig [("name", .str "env1")] = .error msg :=
  ⟨rfl, (C4_bootstrap_config_guard.2.2.1 lineYAML sampleStore sampleReservedFS "env1" none _
    [("name", .str "env1")] rfl).2⟩

/-- C5, the half-created state is readable: if the artifact of a name exists and
is empty, in particular in the state that a successful `CreateInfo` leaves,
`ReadInfo` succeeds and returns a handle that is not initialized and has empty
user, password and CA cert, no addresses and no bootstrap config. -/
theorem C5_half_created_readable (y : YAML) (d : diskStore) (fs : FS) (envName : String) :
    (fs.node (d.envPath envName) = some (.file "") →
      ∃ info, d.ReadInfo y fs envName none = .ok info ∧ info.Initialized = false ∧
        info.APICredentials = ⟨"", ""⟩ ∧ info.APIEndpoint = ⟨[], ""⟩ ∧
        info.BootstrapConfig = []) ∧
    (∀ (fMkdir fOpen : Option Fault) (created : environInfo),
      (d.CreateInfo fs envName fMkdir fOpen).1 = .ok created →
      ∃ info, d.ReadInfo y (d.CreateInfo fs envName fMkdir fOpen).2 envName none = .ok info ∧
        info.Initialized = false ∧ info.APICredentials = ⟨"", ""⟩ ∧
        info.APIEndpoint = ⟨[], ""⟩ ∧ info.BootstrapConfig = []) := by
  have key : ∀ fs1 : FS, fs1.node (d.envPath envName) = some (.file "") →
      ∃ info, d.ReadInfo y fs1 envName none = .ok info ∧ info.Initialized = false ∧
        info.APICredentials = ⟨"", ""⟩ ∧ info.APIEndpoint = ⟨[], ""⟩ ∧
        info.BootstrapConfig = [] :=
    fun fs1 h => ⟨_, ReadInfo_empty y d fs1 envName h, rfl, rfl, rfl, rfl⟩
  exact ⟨key fs, fun fMkdir fOpen created h => key _ (CreateInfo_reserves h).1⟩

/-- The placeholder that `CreateInfo` leaves in the sample store is readable. -/
theorem C5_half_created_readable_witness :
    (sampleStore.CreateInfo sampleFS "env1" none none).1 = .ok sampleCreated ∧
    ∃ info, sampleStore.ReadInfo lineYAML (sampleStore.CreateInfo sampleFS "env1" none none).2
        "env1" none = .ok info ∧
      info.Initialized = false ∧ info.APICredentials = ⟨"", ""⟩ ∧
      info.APIEndpoint = ⟨[], ""⟩ ∧ info.BootstrapConfig = [] :=
  ⟨rfl, (C5_half_created_readable lineYAML sampleStore sampleFS "env1").2 none none
    sampleCreated rfl⟩

/-- C6 as stated fails where a regular file takes the place of the environments
directory: no artifact exists at the path of `env1`, and yet `ReadInfo` returns
the `ENOTDIR` error of the read, which is not a NotFound error. -/
theorem C6_blocked_directory_refuted :
    sampleBlockedFS.node (sampleStore.envPath "env1") = none ∧
    sampleStore.ReadInfo lineYAML sampleBlockedFS "env1" none = .error (.os .ENOTDIR) ∧
    (Error.os .ENOTDIR).IsNotFound = false :=
  ⟨rfl, rfl, rfl⟩

/-- C7, double destroy: for a handle of the store whose artifact is a file in an
existing directory, `Destroy` succeeds and removes the artifact, after which
`ReadInfo` of the name fails with NotFound and a second `Destroy` on the same
handle fails with the error "environment info has already been removed". In
any state, a removal failure other than non-existence is returned unchanged,
and non-existence is always reported as that specific error. -/
theorem C7_double_destroy (y : YAML) (d : diskStore) (envName : String) (info : environInfo)
    (fs : FS) (data : String) (hpath : info.path = d.envPath envName)
    (hfile : fs.node info.path = some (.file data))
    (hdir : fs.node (Dir info.path) = some .dir) :
    info.Destroy fs none = (none, fs.del info.path) ∧
    (fs.del info.path).node info.path = none ∧
    d.ReadInfo y (fs.del info.path) envName none = .error (.NotFound envName) ∧
    info.Destroy (fs.del info.path) none = (some .alreadyRemoved, fs.del info.path) ∧
    (∀ (fs1 : FS) (fault : Option Fault) (e : Errno),
      (osRemove fs1 info.path fault).1 = some e →
      info.Destroy fs1 fault = (some (if e = .ENOENT then .alreadyRemoved else .os e), fs1)) := by
  have hne : Dir info.path ≠ info.path := by
    intro h
    rw [h, hfile] at hdir
    simp at hdir
  have hgone : (fs.del info.path).node info.path = none := by simp [node_del]
  have hdir2 : (fs.del info.path).node (Dir info.path) = some .dir := by
    simp [node_del, hne, hdir]
  have hpe : (fs.del info.path).parentError info.path = none := by
    simp [FS.parentError, hdir2]
  refine ⟨?_, hgone, ?_, ?_, ?_⟩
  · simp [environInfo.Destroy, osRemove, hfile]
  · rw [hpath] at hgone hpe
    rw [hpath]
    exact (ReadInfo_absent y d _ envName hgone hpe)
  · simp [environInfo.Destroy, osRemove, hgone, hpe, IsNotExist]
  · intro fs1 fault e he
    cases hr : osRemove fs1 info.path fault with
    | mk e1 fs2 =>
      rw [hr] at he
      simp only at he
      subst he
      have := osRemove_err hr
      subst this
      simp only [environInfo.Destroy, hr, IsNotExist]
      by_cases h : e = .ENOENT <;> simp [h]

/-- Destroying the reserved sample environment twice. -/
theorem C7_double_destroy_witness :
    sampleCreated.path = sampleStore.envPath "env1" ∧
    sampleReservedFS.node sampleCreated.path = some (.file "") ∧
    sampleReservedFS.node (Dir sampleCreated.path) = some .dir ∧
    sampleCreated.Destroy sampleReservedFS none =
      (none, sampleReservedFS.del sampleCreated.path) ∧
    sampleCreated.Destroy (sampleReservedFS.del sampleCreated.path) none =
      (some .alreadyRemoved, sampleReservedFS.del sampleCreated.path) :=
  ⟨by decide, by decide, by decide,
    (C7_double_destroy lineYAML sampleStore "env1" sampleCreated sampleReservedFS ""
      (by decide) (by decide) (by decide)).1,
    (C7_double_destroy lineYAML sampleStore "env1" sampleCreated sampleReservedFS ""
      (by decide) (by decide) (by decide)).2.2.2.1⟩

/-- C8, the endpoint and credential setters only touch the handle:
`SetAPIEndpoint` makes `APIEndpoint` return what was given and `SetAPICredentials`
makes `APICredentials` return what was given; each leaves the other pair, the
bootstrap config, the path and both flags as they were, and leaves the file
system as it was, so that `ReadInfo` of any name gives the same result before
and after. -/
theorem C8_setters_in_memory (s : Session) (endpoint : APIEndpoint) (creds : APICredentials) :
    ((s.SetAPIEndpoint endpoint).info.APIEndpoint = endpoint ∧
      (s.SetAPIEndpoint endpoint).info.APICredentials = s.info.APICredentials ∧
      (s.SetAPIEndpoint endpoint).info.BootstrapConfig = s.info.BootstrapConfig ∧
      (s.SetAPIEndpoint endpoint).info.path = s.info.path ∧
      (s.SetAPIEndpoint endpoint).info.initialized = s.info.initialized ∧
      (s.SetAPIEndpoint endpoint).info.created = s.info.created ∧
      (s.SetAPIEndpoint endpoint).fs = s.fs ∧
      ∀ (y : YAML) (d : diskStore) (envName : String) (fault : Option Fault),
        d.ReadInfo y (s.SetAPIEndpoint endpoint).fs envName fault =
          d.ReadInfo y s.fs envName fault) ∧
    ((s.SetAPICredentials creds).info.APICredentials = creds ∧
      (s.SetAPICredentials creds).info.APIEndpoint = s.info.APIEndpoint ∧
      (s.SetAPICredentials creds).info.BootstrapConfig = s.info.BootstrapConfig ∧
      (s.SetAPICredentials creds).info.path = s.info.path ∧
      (s.SetAPICredentials creds).info.initialized = s.info.initialized ∧
      (s.SetAPICredentials creds).info.created = s.info.created ∧
      (s.SetAPICredentials creds).fs = s.fs ∧
      ∀ (y : YAML) (d : diskStore) (envName : String) (fault : Option Fault),
        d.ReadInfo y (s.SetAPICredentials creds).fs envName fault =
          d.ReadInfo y s.fs envName fault) :=
  ⟨⟨rfl, rfl, rfl, rfl, rfl, rfl, rfl, fun _ _ _ _ => rfl⟩,
    ⟨rfl, rfl, rfl, rfl, rfl, rfl, rfl, fun _ _ _ _ => rfl⟩⟩

/-- C9 as amended, idempotent admin bootstrap: two calls of `EnsureAdminUser` with
the same user and password, starting where the database has no admin user,
return `added = true` without error and then `added = false` without error;
the first call causes exactly one service stop and one service start, the
second call causes none and changes nothing, so both calls together cause one
stop and one start. -/
theorem C9_idempotent_admin_bootstrap (p : EnsureAdminUserParams) (w : MongoWorld)
    (hfresh : w.adminUsers = []) :
    (EnsureAdminUser p w).1 = (true, none) ∧
    (EnsureAdminUser p (EnsureAdminUser p w).2).1 = (false, none) ∧
    (EnsureAdminUser p w).2.suite.serviceStops = w.suite.serviceStops + 1 ∧
    (EnsureAdminUser p w).2.suite.serviceStarts = w.suite.serviceStarts + 1 ∧
    (EnsureAdminUser p (EnsureAdminUser p w).2).2 = (EnsureAdminUser p w).2 ∧
    (EnsureAdminUser p (EnsureAdminUser p w).2).2.suite.serviceStops =
      w.suite.serviceStops + 1 ∧
    (EnsureAdminUser p (EnsureAdminUser p w).2).2.suite.serviceStarts =
      w.suite.serviceStarts + 1 := by
  have h1 : EnsureAdminUser p w =
      ((true, none),
        { suite := ⟨w.suite.serviceStarts + 1, w.suite.serviceStops + 1⟩,
          adminUsers := [(p.User, p.Password)],
          mongodRuns := w.mongodRuns ++ [noauthArgs (toString p.Port)] }) := by
    simp [EnsureAdminUser, hfresh, UpstartServiceStop, UpstartServiceStart]
  have h2 : EnsureAdminUser p (EnsureAdminUser p w).2 = ((false, none), (EnsureAdminUser p w).2) := by
    rw [h1]
    simp [EnsureAdminUser]
  rw [h2, h1]
  exact ⟨rfl, rfl, rfl, rfl, rfl, rfl, rfl⟩

/-- The two calls of the repository's test on the fresh database. -/
theorem C9_idempotent_admin_bootstrap_witness :
    freshWorld.adminUsers = [] ∧
    (EnsureAdminUser ⟨["localhost:37017"], 37017, "whomever", "whatever"⟩ freshWorld).1
      = (true, none) ∧
    (EnsureAdminUser ⟨["localhost:37017"], 37017, "whomever", "whatever"⟩
      (EnsureAdminUser ⟨["localhost:37017"], 37017, "whomever", "whatever"⟩ freshWorld).2).1
      = (false, none) :=
  ⟨rfl,
    (C9_idempotent_admin_bootstrap ⟨["localhost:37017"], 37017, "whomever", "whatever"⟩
      freshWorld rfl).1,
    (C9_idempotent_admin_bootstrap ⟨["localhost:37017"], 37017, "whomever", "whatever"⟩
      freshWorld rfl).2.1⟩

/-- C9 as stated fails: after the two calls of `TestEnsureAdminUser` (user
`whomever`, password `whatever`, fresh database) the service has been stopped
once and started once, not twice. -/
theorem C9_two_stops_two_starts_refuted :
    ¬ ((EnsureAdminUser ⟨["localhost:37017"], 37017, "whomever", "whatever"⟩ freshWorld).1
          = (true, none) ∧
       (EnsureAdminUser ⟨["localhost:37017"], 37017, "whomever", "whatever"⟩
          (EnsureAdminUser ⟨["localhost:37017"], 37017, "whomever", "whatever"⟩
            freshWorld).2).1 = (false, none) ∧
       (EnsureAdminUser ⟨["localhost:37017"], 37017, "whomever", "whatever"⟩
          (EnsureAdminUser ⟨["localhost:37017"], 37017, "whomever", "whatever"⟩
            freshWorld).2).2.suite.serviceStops = 2 ∧
       (EnsureAdminUser ⟨["localhost:37017"], 37017, "whomever", "whatever"⟩
          (EnsureAdminUser ⟨["localhost:37017"], 37017, "whomever", "whatever"⟩
            freshWorld).2).2.suite.serviceStarts = 2) := by
  decide

/-- C10, the initial seed operation: `Run` calls `state.Initialize`, then
`AddMachine`, then `SetInstanceId` with the command's instance id, in that
order. It returns nil exactly when all three succeed, and then exactly one
machine has been added and it carries the command's instance id. When a step
fails, `Run` returns that step's error unchanged and makes none of the later
calls (only the deferred `Close` of an opened state). -/
theorem C10_initzk_run (c : InitzkCommand) (db : StateDB) (fInit fAdd fSet : Option String) :
    ((c.Run db fInit fAdd fSet).1 = none ↔ fInit = none ∧ fAdd = none ∧ fSet = none) ∧
    (fInit = none → fAdd = none → fSet = none →
      (c.Run db fInit fAdd fSet).2.machines = db.machines ++ [⟨c.InstanceId⟩] ∧
      (c.Run db fInit fAdd fSet).2.calls = db.calls ++
        [.Initialize c.StateInfo, .AddMachine, .SetInstanceId db.machines.length c.InstanceId,
         .Close]) ∧
    (∀ err, fInit = some err →
      c.Run db fInit fAdd fSet =
        (some err, { machines := db.machines,
                     calls := db.calls ++ [.Initialize c.StateInfo] })) ∧
    (∀ err, fInit = none → fAdd = some err →
      c.Run db fInit fAdd fSet =
        (some err, { machines := db.machines,
                     calls := db.calls ++ [.Initialize c.StateInfo, .AddMachine, .Close] })) ∧
    (∀ err, fInit = none → fAdd = none → fSet = some err →
      c.Run db fInit fAdd fSet =
        (some err, { machines := db.machines ++ [⟨""⟩],
                     calls := db.calls ++
                       [.Initialize c.StateInfo, .AddMachine,
                        .SetInstanceId db.machines.length c.InstanceId, .Close] })) := by
  refine ⟨?_, ?_, ?_, ?_, ?_⟩
  · cases fInit <;> cases fAdd <;> cases fSet <;>
      simp [InitzkCommand.Run, stateInitialize, stateAddMachine, machineSetInstanceId]
  · intro h1 h2 h3
    subst h1 h2 h3
    simp [InitzkCommand.Run, stateInitialize, stateAddMachine, machineSetInstanceId, stateClose,
      set_length_snoc]
  · intro err h1
    subst h1
    simp [InitzkCommand.Run, stateInitialize]
  · intro err h1 h2
    subst h1 h2
    simp [InitzkCommand.Run, stateInitialize, stateAddMachine, stateClose]
  · intro err h1 h2 h3
    subst h1 h2 h3
    simp [InitzkCommand.Run, stateInitialize, stateAddMachine, machineSetInstanceId, stateClose]

/-- A successful and a failing run of the seed command on an empty database. -/
theorem C10_initzk_run_witness :
    (InitzkCommand.Run ⟨⟨["127.0.0.1:2181"]⟩, "i-1234", "ec2"⟩ ⟨[], []⟩ none none none).2.machines
      = [⟨"i-1234"⟩] ∧
    InitzkCommand.Run ⟨⟨["127.0.0.1:2181"]⟩, "i-1234", "ec2"⟩ ⟨[], []⟩ none (some "no node") none
      = (some "no node", ⟨[], [.Initialize ⟨["127.0.0.1:2181"]⟩, .AddMachine, .Close]⟩) :=
  ⟨((C10_initzk_run ⟨⟨["127.0.0.1:2181"]⟩, "i-1234", "ec2"⟩ ⟨[], []⟩ none none none).2.1 rfl rfl
      rfl).1,
    (C10_initzk_run ⟨⟨["127.0.0.1:2181"]⟩, "i-1234", "ec2"⟩ ⟨[], []⟩ none (some "no node")
      none).2.2.2.1 "no node" rfl rfl⟩

/-- C11, the unimplemented Azure backend fails loudly: for every `azureInstance`
and every argument, each of `Id`, `DNSName`, `WaitDNSName`, `OpenPorts`,
`ClosePorts` and `Ports` panics with the value "unimplemented", and none of
them returns normally with any result. -/
theorem C11_azure_unimplemented (inst : azureInstance) (machineId : String)
    (ports : List Port) :
    (inst.Id = .error "unimplemented" ∧ ∀ v, inst.Id ≠ .ok v) ∧
    (inst.DNSName = .error "unimplemented" ∧ ∀ v, inst.DNSName ≠ .ok v) ∧
    (inst.WaitDNSName = .error "unimplemented" ∧ ∀ v, inst.WaitDNSName ≠ .ok v) ∧
    (inst.OpenPorts machineId ports = .error "unimplemented" ∧
      ∀ v, inst.OpenPorts machineId ports ≠ .ok v) ∧
    (inst.ClosePorts machineId ports = .error "unimplemented" ∧
      ∀ v, inst.ClosePorts machineId ports ≠ .ok v) ∧
    (inst.Ports machineId = .error "unimplemented" ∧
      ∀ v, inst.Ports machineId ≠ .ok v) := by
  refine ⟨⟨rfl, ?_⟩, ⟨rfl, ?_⟩, ⟨rfl, ?_⟩, ⟨rfl, ?_⟩, ⟨rfl, ?_⟩, ⟨rfl, ?_⟩⟩ <;>
    intro v h <;> cases h

/-- C12, a reservation blocks re-creation only until it is destroyed: after a
successful `CreateInfo` of a name, directly or after a `Write` (successful or
not) on a handle for the reserved path, `Destroy` on a handle for that name
succeeds and removes the artifact, and a following `CreateInfo` of the name
succeeds again: it returns a handle with `created = true`,
`initialized = false` and all fields empty, and leaves an empty placeholder. -/
theorem C12_recreate_after_destroy (y : YAML) (d : diskStore) (fs : FS) (envName : String)
    (fMkdir fOpen : Option Fault) (info : environInfo)
    (h : (d.CreateInfo fs envName fMkdir fOpen).1 = .ok info) :
    ∀ fs2, (fs2 = (d.CreateInfo fs envName fMkdir fOpen).2 ∨
        ∃ (info1 : environInfo) (env : WriteEnv), info1.path = info.path ∧
          fs2 = (info1.Write y (d.CreateInfo fs envName fMkdir fOpen).2 env).fs) →
      ∀ info2 : environInfo, info2.path = d.envPath envName →
        info2.Destroy fs2 none = (none, fs2.del (d.envPath envName)) ∧
        d.CreateInfo (fs2.del (d.envPath envName)) envName none none =
          (.ok { path := d.envPath envName, initialized := false, created := true, User := "",
                 Password := "", StateServers := [], CACert := "", Config := [] },
            (fs2.del (d.envPath envName)).set (d.envPath envName) (.file "")) ∧
        ((fs2.del (d.envPath envName)).set (d.envPath envName) (.file "")).node
          (d.envPath envName) = some (.file "") := by
  obtain ⟨hinfo, fsA, _, hA2, hA3, hA4, hfs1⟩ := CreateInfo_ok h
  have hAdir := (parentError_none_iff _ _).1 hA4
  have hEp : Join [d.dir, "environments"] ≠ d.envPath envName := by
    intro he
    rw [he] at hA2
    exact hA2 hA3
  have hDp : Dir (d.envPath envName) ≠ d.envPath envName := by
    intro he
    rw [he, hA3] at hAdir
    simp at hAdir
  have hip : info.path = d.envPath envName := by rw [hinfo]
  -- the state after the reservation
  have h1p : (d.CreateInfo fs envName fMkdir fOpen).2.node (d.envPath envName)
      = some (.file "") := by
    rw [hfs1]; simp [node_set]
  have h1E : (d.CreateInfo fs envName fMkdir fOpen).2.node (Join [d.dir, "environments"])
      ≠ none := by
    rw [hfs1]; simp [node_set, hEp, hA2]
  have h1D : (d.CreateInfo fs envName fMkdir fOpen).2.node (Dir (d.envPath envName))
      = some .dir := by
    rw [hfs1]; simp [node_set, hDp, hAdir]
  intro fs2 hfs2
  have h2 : (∃ data, fs2.node (d.envPath envName) = some (.file data)) ∧
      fs2.node (Join [d.dir, "environments"]) ≠ none ∧
      fs2.node (Dir (d.envPath envName)) = some .dir := by
    rcases hfs2 with hfs2 | ⟨info1, env, hp1, hfs2⟩
    · subst hfs2
      exact ⟨⟨"", h1p⟩, h1E, h1D⟩
    · subst hfs2
      rw [hip] at hp1
      refine ⟨?_, Write_keeps_entry _ _ _ _ _ h1E, ?_⟩
      · rcases Write_node y info1 _ env (d.envPath envName) (Or.inl (by rw [h1p]; simp)) _
          (List.mem_cons_self _ _) with hw | ⟨_, data, _, hw⟩
        · exact ⟨"", by rw [hw, h1p]⟩
        · exact ⟨data, hw⟩
      · rcases Write_node y info1 _ env (Dir (d.envPath envName)) (Or.inl (by rw [h1D]; simp)) _
          (List.mem_cons_self _ _) with hw | ⟨hq, _⟩
        · rw [hw, h1D]
        · exact absurd (hq.trans hp1) hDp
  obtain ⟨⟨data, h2p⟩, h2E, h2D⟩ := h2
  intro info2 hp2
  have h3E : (fs2.del (d.envPath envName)).node (Join [d.dir, "environments"]) ≠ none := by
    simp [node_del, hEp, h2E]
  have h3p : (fs2.del (d.envPath envName)).node (d.envPath envName) = none := by
    simp [node_del]
  have h3D : (fs2.del (d.envPath envName)).parentError (d.envPath envName) = none := by
    rw [parentError_none_iff]
    simp [node_del, hDp, h2D]
  refine ⟨?_, ?_, by simp [node_set]⟩
  · simp [environInfo.Destroy, osRemove, hp2, h2p]
  · rw [CreateInfo_fresh d _ envName h3E h3p h3D]
    rfl

/-- The sample environment is reserved, destroyed and reserved again. -/
theorem C12_recreate_after_destroy_witness :
    (sampleStore.CreateInfo sampleFS "env1" none none).1 = .ok sampleCreated ∧
    sampleCreated.Destroy sampleReservedFS none =
      (none, sampleReservedFS.del (sampleStore.envPath "env1")) ∧
    sampleStore.CreateInfo (sampleReservedFS.del (sampleStore.envPath "env1")) "env1" none none =
      (.ok { path := sampleStore.envPath "env1", initialized := false, created := true,
             User := "", Password := "", StateServers := [], CACert := "", Config := [] },
        (sampleReservedFS.del (sampleStore.envPath "env1")).set (sampleStore.envPath "env1")
          (.file "")) :=
  ⟨rfl,
    (C12_recreate_after_destroy lineYAML sampleStore sampleFS "env1" none none sampleCreated rfl
      sampleReservedFS (Or.inl rfl) sampleCreated (by decide)).1,
    (C12_recreate_after_destroy lineYAML sampleStore sampleFS "env1" none none sampleCreated rfl
      sampleReservedFS (Or.inl rfl) sampleCreated (by decide)).2.1⟩

/-- C13, a rejected creation does not damage the existing record: where the
artifact of a name exists, `CreateInfo` of the name fails, whatever faults it
meets, and leaves the entry at the environment's path exactly as it was, so
`ReadInfo` of the name gives the same result (the same handle with the same
initialized flag, credentials, endpoint and bootstrap config, or the same
error) before and after the failed call. Where the environments directory
exists as well and no fault is met, the error is
`ErrEnvironInfoAlreadyExists` and nothing at all is changed. -/
theorem C13_rejected_creation_harmless (d : diskStore) (fs : FS) (envName : String)
    (fMkdir fOpen : Option Fault) (h : fs.node (d.envPath envName) ≠ none) :
    (∃ err, (d.CreateInfo fs envName fMkdir fOpen).1 = .error err) ∧
    (d.CreateInfo fs envName fMkdir fOpen).2.node (d.envPath envName)
      = fs.node (d.envPath envName) ∧
    (∀ (y : YAML) (fault : Option Fault),
      d.ReadInfo y (d.CreateInfo fs envName fMkdir fOpen).2 envName fault
        = d.ReadInfo y fs envName fault) ∧
    (fs.node (Join [d.dir, "environments"]) ≠ none →
      d.CreateInfo fs envName none none = (.error .ErrEnvironInfoAlreadyExists, fs)) := by
  obtain ⟨err, herr⟩ := CreateInfo_fails_of_entry d fs envName fMkdir fOpen h
  have hnode : (d.CreateInfo fs envName fMkdir fOpen).2.node (d.envPath envName)
      = fs.node (d.envPath envName) := by
    rcases CreateInfo_err herr with h1 | ⟨h1, h2⟩
    · rw [h1]
    · have hne : d.envPath envName ≠ Join [d.dir, "environments"] := by
        intro he
        rw [he] at h
        exact h h1
      rw [h2, node_set]
      simp [hne]
  exact ⟨⟨err, herr⟩, hnode,
    fun y fault => ReadInfo_congr y d envName fault (ReadFile_congr fault hnode h),
    fun hdir => CreateInfo_existing d fs envName hdir h none none⟩

/-- A second reservation of the sample environment leaves its placeholder readable as before. -/
theorem C13_rejected_creation_harmless_witness :
    sampleReservedFS.node (sampleStore.envPath "env1") ≠ none ∧
    (∃ err, (sampleStore.CreateInfo sampleReservedFS "env1" none none).1 = .error err) ∧
    sampleStore.ReadInfo lineYAML (sampleStore.CreateInfo sampleReservedFS "env1" none none).2
        "env1" none
      = sampleStore.ReadInfo lineYAML sampleReservedFS "env1" none :=
  ⟨by decide,
    (C13_rejected_creation_harmless sampleStore sampleReservedFS "env1" none none
      (by decide)).1,
    (C13_rejected_creation_harmless sampleStore sampleReservedFS "env1" none none
      (by decide)).2.2.1 lineYAML none⟩

end Juju
